import Mathlib

/-!
Verification of the GPU image-layout planner (`src/nouveau/nil/image.rs`).

The file shallowly embeds the data model and the operations of `image.rs`:
`SampleLayout`, `ImageLevel`, `Image`, the construction algorithm `Image.new`,
the level-geometry queries, the mip-tail queries, `image_for_level`, and the
PTE-kind selection tables.  Machine integers are modelled as `Nat`; every
`assert!`/`panic!` of the Rust source is modelled by returning `none` from an
`Option`-valued function.

The collaborator types `Extent4D`, `Format` and `Tiling` live outside the
provided source (the spec lists them as external, assumed-correct value
types), so they are modelled from the spec: extents are four plain axis
values with per-axis minification, alignment rounding and flat byte size;
a tiling is a linear marker or a block shape given by per-axis log2 factors
over a 64 B x 8 x 1 base block (the GOB of the spec's glossary); the three
tiling-selection operations `choose`, `sparse` and `clamp` have no definition
in the spec and are therefore passed in as parameters (`TilingFns`), so all
theorems hold for every implementation of that interface.
-/

namespace NIL

/-- Rounding up to a multiple: `nextMultipleOf n m` is the least multiple of
`m` that is `≥ n`.  Rust's `next_multiple_of` panics when `m = 0`; here the
junk value `0` is returned in that case, and every call site of the embedding
uses a provably positive `m` (`Tiling.size_B` is always positive, and the
literals `128`/`align_B` are positive). -/
def nextMultipleOf (n m : Nat) : Nat :=
  if m = 0 then 0 else (n + m - 1) / m * m

/-- Fuel-driven floor base-2 logarithm (structural recursion so that the
kernel can evaluate it). -/
def lg2F : Nat → Nat → Nat
  | 0, _ => 0
  | fuel + 1, n => if n ≤ 1 then 0 else lg2F fuel (n / 2) + 1

/-- Floor base-2 logarithm of a positive number, `lg2 1 = 0`, `lg2 2 = 1`. -/
def lg2 (n : Nat) : Nat := lg2F n n

/-- Rust's `u32::ilog2`, which panics on `0` (modelled as `none`). -/
def ilog2? (n : Nat) : Option Nat :=
  if n = 0 then none else some (lg2 n)

/-- Modelled from the spec: the external `Extent4D` collaborator, "an extent
type constructible from four axis values".  The measurement-unit phantom
parameter of the Rust type is dropped; the axis values are what all of the
arithmetic consumes. -/
structure Extent4D where
  width : Nat
  height : Nat
  depth : Nat
  array_len : Nat
deriving DecidableEq

/-- Modelled from the spec: per-axis mip minification, "each axis halved and
floored-to-minimum-1 per level"; the array length does not minify. -/
def Extent4D.minify (e : Extent4D) (level : Nat) : Extent4D :=
  { width := max 1 (e.width >>> level)
    height := max 1 (e.height >>> level)
    depth := max 1 (e.depth >>> level)
    array_len := e.array_len }

/-- Modelled from the spec: "alignment-rounding to another extent", each axis
rounded up to a multiple of the other extent's axis. -/
def Extent4D.align (e t : Extent4D) : Extent4D :=
  { width := nextMultipleOf e.width t.width
    height := nextMultipleOf e.height t.height
    depth := nextMultipleOf e.depth t.depth
    array_len := nextMultipleOf e.array_len t.array_len }

/-- Modelled from the spec: "flat byte-size computation" of a byte extent. -/
def Extent4D.size_B (e : Extent4D) : Nat :=
  e.width * e.height * e.depth * e.array_len

/-- Hardware pipe formats that the PTE-kind tables of `image.rs` distinguish;
every other format is `Other` (the tables treat all remaining formats alike,
keyed only by the element byte size carried in `Format`). -/
inductive PipeFormat where
  | Z16_UNORM
  | X8Z24_UNORM
  | S8X24_UINT
  | S8_UINT_Z24_UNORM
  | X24S8_UINT
  | Z24X8_UNORM
  | Z24_UNORM_S8_UINT
  | X32_S8X24_UINT
  | Z32_FLOAT_S8X24_UINT
  | Z32_FLOAT
  | R32_UINT
  | R32G32_UINT
  | R32G32B32A32_UINT
  | Other (id : Nat)
deriving DecidableEq

/-- Modelled from the spec: the external `Format` collaborator "reports
per-element (block) byte size and exposes a mapping to a hardware format
enumeration used only by the PTE-kind tables". -/
structure Format where
  pipe : PipeFormat
  el_size_B : Nat
deriving DecidableEq

/-- Sample layouts: `#[repr(u8)] enum SampleLayout` of the source. -/
inductive SampleLayout where
  | _1x1
  | _2x1
  | _2x2
  | _4x2
  | _4x4
  | Invalid
deriving DecidableEq

/-- Source `SampleLayout::choose_sample_layout`: 1,2,4,8,16 map to the fixed
grids, anything else to `Invalid`. -/
def SampleLayout.choose_sample_layout (samples : Nat) : SampleLayout :=
  if samples = 1 then SampleLayout._1x1
  else if samples = 2 then SampleLayout._2x1
  else if samples = 4 then SampleLayout._2x2
  else if samples = 8 then SampleLayout._4x2
  else if samples = 16 then SampleLayout._4x4
  else SampleLayout.Invalid

/-- Source `SampleLayout::px_extent_sa`; the Rust function panics on
`Invalid`, modelled as `none`. -/
def SampleLayout.px_extent_sa : SampleLayout → Option Extent4D
  | SampleLayout._1x1 => some ⟨1, 1, 1, 1⟩
  | SampleLayout._2x1 => some ⟨2, 1, 1, 1⟩
  | SampleLayout._2x2 => some ⟨2, 2, 1, 1⟩
  | SampleLayout._4x2 => some ⟨4, 2, 1, 1⟩
  | SampleLayout._4x4 => some ⟨4, 4, 1, 1⟩
  | SampleLayout.Invalid => none

/-- Modelled from the spec: pixel-to-sample conversion multiplies the planar
axes by the supersample grid; fails when the layout is the invalid sentinel
(whose grid query is fatal). -/
def Extent4D.to_sa (e : Extent4D) (s : SampleLayout) : Option Extent4D :=
  (s.px_extent_sa).map fun g =>
    ⟨e.width * g.width, e.height * g.height, e.depth, e.array_len⟩

/-- Modelled from the spec: "byte extent of a level = pixel extent converted
through the format's element size and the active sample-layout grid".  The
block extent of a format is taken as 1x1 (no claim involves block-compressed
pixel/element conversions), so the width scales by the element byte size. -/
def Extent4D.to_B (e : Extent4D) (f : Format) (s : SampleLayout) : Option Extent4D :=
  (e.to_sa s).map fun sa => ⟨sa.width * f.el_size_B, sa.height, sa.depth, sa.array_len⟩

/-- Modelled from the spec: the external `Tiling` collaborator "reports
whether it represents real tiling versus linear, its Y/Z log2 block factors,
its byte extent, and its flat byte size". -/
structure Tiling where
  is_tiled : Bool
  x_log2 : Nat
  y_log2 : Nat
  z_log2 : Nat
deriving DecidableEq

/-- Modelled from the spec's glossary: the byte extent of a tiling is the
base 64 B x 8 x 1 block (GOB) shifted by the per-axis log2 factors; a linear
tiling reports a 1 x 1 x 1 byte extent. -/
def Tiling.extent_B (t : Tiling) : Extent4D :=
  if t.is_tiled then ⟨64 <<< t.x_log2, 8 <<< t.y_log2, 1 <<< t.z_log2, 1⟩
  else ⟨1, 1, 1, 1⟩

/-- Flat byte size of one tiling block. -/
def Tiling.size_B (t : Tiling) : Nat := t.extent_B.size_B

/-- Rust `Tiling::default()` (`#[derive(Default)]`): the linear zero tiling,
used for the default-initialized entries of the fixed level array. -/
def defaultTiling : Tiling := ⟨false, 0, 0, 0⟩

/-- Modelled from the spec: the three tiling-selection operations of the
external `Tiling` collaborator (`choose`, `sparse`, `clamp`) have no
definition in the spec, so the embedding is parameterized by them; every
theorem below holds for an arbitrary implementation of this interface. -/
structure TilingFns where
  choose : Extent4D → Format → SampleLayout → Nat → Tiling
  sparse : Format → Nat → Tiling
  clamp : Tiling → Extent4D → Tiling

/-- Image dimensionality (`enum ImageDim`); the payload of `TilingFns.sparse`
uses the numeric encoding 1/2/3 of the source's `#[repr(u8)]`. -/
inductive ImageDim where
  | _1D
  | _2D
  | _3D
deriving DecidableEq

/-- Numeric `#[repr(u8)]` value of an `ImageDim`. -/
def ImageDim.reprVal : ImageDim → Nat
  | ImageDim._1D => 1
  | ImageDim._2D => 2
  | ImageDim._3D => 3

/-- Usage flag bits of the source. -/
def IMAGE_USAGE_2D_VIEW_BIT : Nat := 1
/-- Linear usage flag bit. -/
def IMAGE_USAGE_LINEAR_BIT : Nat := 2
/-- Sparse-residency usage flag bit. -/
def IMAGE_USAGE_SPARSE_RESIDENCY_BIT : Nat := 4

/-- Construction request (`struct ImageInitInfo`). -/
structure ImageInitInfo where
  dim : ImageDim
  format : Format
  extent_px : Extent4D
  levels : Nat
  samples : Nat
  usage : Nat
deriving DecidableEq

/-- Data layout of one mip level (`struct ImageLevel`). -/
structure ImageLevel where
  offset_B : Nat
  tiling : Tiling
  row_stride_B : Nat
deriving DecidableEq

/-- Rust `ImageLevel::default()`. -/
def defaultImageLevel : ImageLevel := ⟨0, defaultTiling, 0⟩

/-- The computed layout (`struct Image`).  The Rust fixed array
`[ImageLevel; 16]` is a 16-element list; indexing beyond 16 models the Rust
bounds-check panic via `none`. -/
structure Image where
  dim : ImageDim
  format : Format
  extent_px : Extent4D
  sample_layout : SampleLayout
  num_levels : Nat
  mip_tail_first_lod : Nat
  levels : List ImageLevel
  array_stride_B : Nat
  align_B : Nat
  size_B : Nat
  tile_mode : Nat
  pte_kind : Nat
deriving DecidableEq

/-- Placeholder image used only as the default of `Option.getD` in concrete
witnesses. -/
def defaultImage : Image :=
  { dim := ImageDim._1D, format := ⟨PipeFormat.Other 0, 0⟩, extent_px := ⟨0, 0, 0, 0⟩
    sample_layout := SampleLayout.Invalid, num_levels := 0, mip_tail_first_lod := 0
    levels := [], array_stride_B := 0, align_B := 0, size_B := 0, tile_mode := 0
    pte_kind := 0 }

/-- Device capability record: only the 3-D engine class is consumed. -/
structure DevInfo where
  cls_eng3d : Nat
deriving DecidableEq

/-- Hardware class constant `clc597::TURING_A` (the modern threshold). -/
def TURING_A : Nat := 0xc597
/-- Hardware class constant `cl9097::FERMI_A` (the legacy threshold). -/
def FERMI_A : Nat := 0x9097

/-- Level pixel extent as a function of the fields it reads: the source's
`assert!(level == 0 || self.sample_layout == SampleLayout::_1x1)` then
minification. -/
def levelExtentPx (ex : Extent4D) (s : SampleLayout) (level : Nat) : Option Extent4D :=
  if level = 0 ∨ s = SampleLayout._1x1 then some (ex.minify level) else none

/-- Level byte extent as a function of the fields it reads. -/
def levelExtentB (ex : Extent4D) (f : Format) (s : SampleLayout) (level : Nat) :
    Option Extent4D :=
  (levelExtentPx ex s level).bind fun e => e.to_B f s

/-- Source `Image::level_extent_px`: `assert!(level == 0 || self.sample_layout
== SampleLayout::_1x1)` then minify. -/
def Image.level_extent_px (img : Image) (level : Nat) : Option Extent4D :=
  levelExtentPx img.extent_px img.sample_layout level

/-- Source `Image::level_extent_B`: pixel extent of the level converted to
bytes. -/
def Image.level_extent_B (img : Image) (level : Nat) : Option Extent4D :=
  levelExtentB img.extent_px img.format img.sample_layout level

/-- Source `Image::level_size_B`: the asserted `level < num_levels`, the
tiled path (extent aligned to the level's tiling then flattened) and the
linear path (`row_stride_B * height`, requiring depth 1). -/
def Image.level_size_B (img : Image) (level : Nat) : Option Nat :=
  if level < img.num_levels then
    match img.level_extent_B level, img.levels[level]? with
    | some lvl_ext_B, some lvl =>
      if lvl.tiling.is_tiled then
        some ((lvl_ext_B.align lvl.tiling.extent_B).size_B)
      else
        if lvl_ext_B.depth = 1 then some (lvl.row_stride_B * lvl_ext_B.height)
        else none
    | _, _ => none
  else none

/-- Source `Image::mip_tail_offset_B`: `assert!(self.mip_tail_first_lod > 0)`
then the stored offset of the tail's first level (the array indexing panics
past the 16-entry capacity, hence the optional list access). -/
def Image.mip_tail_offset_B (img : Image) : Option Nat :=
  if 0 < img.mip_tail_first_lod then
    (img.levels[img.mip_tail_first_lod]?).map (·.offset_B)
  else none

/-- Source `Image::mip_tail_size_B`: remaining bytes of the layer from the
tail offset; the `u64` subtraction and the `try_into::<u32>().unwrap()` are
modelled by the two guards. -/
def Image.mip_tail_size_B (img : Image) : Option Nat :=
  match img.mip_tail_offset_B with
  | none => none
  | some off =>
    if off ≤ img.array_stride_B ∧ img.array_stride_B - off < 2 ^ 32 then
      some (img.array_stride_B - off)
    else none

/-- Source `Image::tu102_choose_pte_kind` (modern-generation table, total). -/
def tu102_choose_pte_kind (f : Format) (compressed : Bool) : Nat :=
  match f.pipe with
  | PipeFormat.Z16_UNORM => if compressed then 0x0b else 0x01
  | PipeFormat.X8Z24_UNORM | PipeFormat.S8X24_UINT | PipeFormat.S8_UINT_Z24_UNORM =>
    if compressed then 0x0e else 0x05
  | PipeFormat.X24S8_UINT | PipeFormat.Z24X8_UNORM | PipeFormat.Z24_UNORM_S8_UINT =>
    if compressed then 0x0c else 0x03
  | PipeFormat.X32_S8X24_UINT | PipeFormat.Z32_FLOAT_S8X24_UINT =>
    if compressed then 0x0d else 0x04
  | PipeFormat.Z32_FLOAT => 0x06
  | _ => 0

/-- Source `Image::nvc0_choose_pte_kind` (legacy-generation table).  The Rust
function computes `samples.ilog2()` before matching, which panics for
`samples = 0`; the 64-bit compressed arm panics for sample counts outside
1/2/4/8. -/
def nvc0_choose_pte_kind (f : Format) (samples : Nat) (compressed : Bool) : Option Nat :=
  (ilog2? samples).bind fun ms =>
    match f.pipe with
    | PipeFormat.Z16_UNORM => some (if compressed then 0x02 + ms else 0x01)
    | PipeFormat.X8Z24_UNORM | PipeFormat.S8X24_UINT | PipeFormat.S8_UINT_Z24_UNORM =>
      some (if compressed then 0x51 + ms else 0x46)
    | PipeFormat.X24S8_UINT | PipeFormat.Z24X8_UNORM | PipeFormat.Z24_UNORM_S8_UINT =>
      some (if compressed then 0x17 + ms else 0x11)
    | PipeFormat.X32_S8X24_UINT | PipeFormat.Z32_FLOAT_S8X24_UINT =>
      some (if compressed then 0xce + ms else 0xc3)
    | _ =>
      let blocksize_bits := f.el_size_B * 8
      if blocksize_bits = 128 then
        some (if compressed then 0xf4 + ms * 2 else 0xfe)
      else if blocksize_bits = 64 then
        if compressed then
          if samples = 1 then some 0xe6
          else if samples = 2 then some 0xeb
          else if samples = 4 then some 0xed
          else if samples = 8 then some 0xf2
          else none
        else some 0xfe
      else if blocksize_bits = 32 then
        if compressed ∧ ms ≠ 0 then
          some (if samples = 2 then 0xdd else if samples = 4 then 0xdf
                else if samples = 8 then 0xe4 else 0)
        else some 0xfe
      else if blocksize_bits = 16 ∨ blocksize_bits = 8 then some 0xfe
      else some 0

/-- Source `Image::choose_pte_kind`: generation dispatch; an unsupported
3-D engine class is fatal. -/
def choose_pte_kind (dev : DevInfo) (f : Format) (samples : Nat) (compressed : Bool) :
    Option Nat :=
  if TURING_A ≤ dev.cls_eng3d then some (tu102_choose_pte_kind f compressed)
  else if FERMI_A ≤ dev.cls_eng3d then nvc0_choose_pte_kind f samples compressed
  else none

/-- Dimensionality validation at the top of `Image::new` (the three
per-dimension `assert!` groups). -/
def dimCheckOk (info : ImageInitInfo) : Bool :=
  match info.dim with
  | ImageDim._1D =>
    info.extent_px.height == 1 && info.extent_px.depth == 1 && info.samples == 1
  | ImageDim._2D => info.extent_px.depth == 1
  | ImageDim._3D => info.extent_px.array_len == 1 && info.samples == 1

/-- Sparse-residency request flag of a construction. -/
def sparseRequested (info : ImageInitInfo) : Bool :=
  info.usage &&& IMAGE_USAGE_SPARSE_RESIDENCY_BIT != 0

/-- Tiling selected at the top of `Image::new`: the generation's sparse
tiling under sparse residency, otherwise the collaborator's best choice. -/
def selectedTiling (env : TilingFns) (info : ImageInitInfo) : Tiling :=
  if sparseRequested info then env.sparse info.format info.dim.reprVal
  else env.choose info.extent_px info.format
    (SampleLayout.choose_sample_layout info.samples) info.usage

/-- The image value of `Image::new` before the level walk. -/
def initImage (info : ImageInitInfo) : Image :=
  { dim := info.dim
    format := info.format
    extent_px := info.extent_px
    sample_layout := SampleLayout.choose_sample_layout info.samples
    num_levels := info.levels
    mip_tail_first_lod := if sparseRequested info then info.levels else 0
    levels := List.replicate 16 defaultImageLevel
    array_stride_B := 0
    align_B := 0
    size_B := 0
    tile_mode := 0
    pte_kind := 0 }

/-- One iteration body of the level walk of `Image::new` (everything except
the final `layer_size_B += level_size_B` accumulation): the tiled path clamps
the tiling, lowers the mip-tail index on divergence, aligns the byte extent
and records the level; the linear path checks the 2-D/single-level/
single-sample constraints and records a 128-byte-aligned row stride.  The
`level < 16` conditions model the bounds check of the fixed `[ImageLevel;16]`
array. -/
def stepImage (env : TilingFns) (tiling : Tiling) (level : Nat) (image : Image)
    (layer_size_B : Nat) (lvl_ext_B : Extent4D) : Option Image :=
  if tiling.is_tiled then
    if level < 16 then
      some { image with
               mip_tail_first_lod :=
                 if tiling = env.clamp tiling lvl_ext_B then image.mip_tail_first_lod
                 else min image.mip_tail_first_lod level
               levels := image.levels.set level
                 ⟨layer_size_B, env.clamp tiling lvl_ext_B,
                  (lvl_ext_B.align (env.clamp tiling lvl_ext_B).extent_B).width⟩ }
    else none
  else
    if image.dim = ImageDim._2D ∧ image.num_levels = 1 ∧
        image.sample_layout = SampleLayout._1x1 ∧ level < 16 ∧ lvl_ext_B.depth = 1 then
      some { image with
               levels := image.levels.set level
                 ⟨layer_size_B, tiling, nextMultipleOf lvl_ext_B.width 128⟩ }
    else none

/-- The level walk of `Image::new`, fuel-structural so that the kernel can
evaluate it (the fuel is always instantiated with the level count). -/
def newLoop (env : TilingFns) (tiling : Tiling) (n : Nat) :
    Nat → Nat → Image → Nat → Option (Image × Nat)
  | 0, level, image, layer_size_B =>
    if level < n then none else some (image, layer_size_B)
  | fuel + 1, level, image, layer_size_B =>
    if level < n then
      (image.level_extent_B level).bind fun lvl_ext_B =>
        (stepImage env tiling level image layer_size_B lvl_ext_B).bind fun image' =>
          (image'.level_size_B level).bind fun sz =>
            newLoop env tiling n fuel (level + 1) image' (layer_size_B + sz)
    else some (image, layer_size_B)

/-- Alignment selected by the tail of `Image::new` for a tiled level-0
tiling: the level-0 tile size, raised to 64 KiB for sparse residency, raised
to 4 KiB for tiled images, and raised again to 64 KiB when the selected
PTE kind lies in the reserved range `0xb..=0xe`. -/
def alignTiled (sparse : Bool) (s0 pte : Nat) : Nat :=
  if 0xb ≤ pte ∧ pte ≤ 0xe then
    max (max (if sparse then max s0 65536 else s0) 4096) 65536
  else max (if sparse then max s0 65536 else s0) 4096

/-- Alignment selected by the tail of `Image::new` for a linear level-0
tiling: the level-0 tile size, raised to 64 KiB for sparse residency, raised
to 128 B for linear rendering. -/
def alignLinear (sparse : Bool) (s0 : Nat) : Nat :=
  max (if sparse then max s0 65536 else s0) 128

/-- Tail of `Image::new` after the level walk: array stride rounded to the
level-0 tile size, total size `array_stride_B * array_len`, the alignment
raises, tile-mode packing, PTE-kind selection, and the final rounding of
`size_B` up to `align_B`. -/
def finishImage (dev : DevInfo) (sparse : Bool) (format : Format) (samples : Nat)
    (image : Image) (layer_size_B : Nat) : Option Image :=
  (image.levels[0]?).bind fun lvl0 =>
    if lvl0.tiling.is_tiled then
      (choose_pte_kind dev format samples false).bind fun pte_kind =>
        some { image with
                 array_stride_B := nextMultipleOf layer_size_B lvl0.tiling.size_B
                 size_B := nextMultipleOf
                   (nextMultipleOf layer_size_B lvl0.tiling.size_B *
                     image.extent_px.array_len)
                   (alignTiled sparse lvl0.tiling.size_B pte_kind)
                 align_B := alignTiled sparse lvl0.tiling.size_B pte_kind
                 tile_mode :=
                   (lvl0.tiling.y_log2 <<< 4 ||| lvl0.tiling.z_log2 <<< 8) % 65536
                 pte_kind := pte_kind }
    else
      some { image with
               array_stride_B := nextMultipleOf layer_size_B lvl0.tiling.size_B
               size_B := nextMultipleOf
                 (nextMultipleOf layer_size_B lvl0.tiling.size_B *
                   image.extent_px.array_len)
                 (alignLinear sparse lvl0.tiling.size_B)
               align_B := alignLinear sparse lvl0.tiling.size_B }

/-- Source `Image::new`: validation, tiling selection, the level walk and the
finishing arithmetic.  Every fatal assertion of the source becomes `none`. -/
def Image.new (env : TilingFns) (dev : DevInfo) (info : ImageInitInfo) : Option Image :=
  if dimCheckOk info then
    match newLoop env (selectedTiling env info) info.levels info.levels 0 (initImage info) 0 with
    | none => none
    | some (image, layer_size_B) =>
      finishImage dev (sparseRequested info) info.format info.samples image layer_size_B
  else none

/-- Source `Image::image_for_level`: isolates one mip level.  The output pair
is (new image, original absolute byte offset of the level — the Rust
out-parameter).  The guards model, in order: `assert!(level < num_levels)`,
the sample-layout assertion of `level_extent_px`, the bounds-checked array
reads, the debug-checked `u64` subtractions and
`assert!(next_lvl_offset_in_bytes > lvl.offset_B)`. -/
def Image.image_for_level (img : Image) (level : Nat) : Option (Image × Nat) :=
  if level < img.num_levels then
    (img.level_extent_px level).bind fun lvl_extent_px =>
      (img.levels[level]?).bind fun lvl =>
        if lvl.offset_B ≤ img.size_B then
          (if level + 1 < img.num_levels then
            (img.levels[level + 1]?).bind fun next =>
              if lvl.offset_B < next.offset_B ∧
                  next.offset_B - lvl.offset_B ≤ img.size_B - lvl.offset_B then
                some (img.size_B - lvl.offset_B - (next.offset_B - lvl.offset_B))
              else none
          else some (img.size_B - lvl.offset_B)).bind fun size_B =>
            some ({ img with
                      extent_px := lvl_extent_px
                      num_levels := 1
                      levels := (List.replicate 16 defaultImageLevel).set 0
                        { lvl with offset_B := 0 }
                      align_B := lvl.tiling.size_B
                      size_B := size_B
                      mip_tail_first_lod :=
                        if level < img.mip_tail_first_lod then 1 else 0 },
                   lvl.offset_B)
        else none
  else none

/-- Divergence test of the level walk: does clamping the base tiling to the
byte extent of level `k` change it?  (False when the level's extent is
undefined — in a successful construction it never is.) -/
def divergesB (env : TilingFns) (t : Tiling) (ex : Extent4D) (f : Format)
    (s : SampleLayout) (k : Nat) : Bool :=
  match levelExtentB ex f s k with
  | some e => decide (env.clamp t e ≠ t)
  | none => false

/-- First index in `[level, n)` where `p` holds, else `n` (fuel-structural). -/
def firstDivFrom (p : Nat → Bool) (n : Nat) : Nat → Nat → Nat
  | 0, _ => n
  | fuel + 1, level =>
    if level < n then (if p level then level else firstDivFrom p n fuel (level + 1))
    else n

/-- Depth/stencil pipe formats: the ten formats the PTE-kind tables
special-case. -/
def depthStencilFmt (p : PipeFormat) : Bool :=
  match p with
  | PipeFormat.Z16_UNORM | PipeFormat.X8Z24_UNORM | PipeFormat.S8X24_UINT
  | PipeFormat.S8_UINT_Z24_UNORM | PipeFormat.X24S8_UINT | PipeFormat.Z24X8_UNORM
  | PipeFormat.Z24_UNORM_S8_UINT | PipeFormat.X32_S8X24_UINT
  | PipeFormat.Z32_FLOAT_S8X24_UINT | PipeFormat.Z32_FLOAT => true
  | _ => false

/-- Formats special-cased by the legacy-generation table (`Z32_FLOAT` is not
among them: on the legacy generation it falls through to the element-size
dispatch). -/
def nvc0SpecialFmt (p : PipeFormat) : Bool :=
  match p with
  | PipeFormat.Z16_UNORM | PipeFormat.X8Z24_UNORM | PipeFormat.S8X24_UINT
  | PipeFormat.S8_UINT_Z24_UNORM | PipeFormat.X24S8_UINT | PipeFormat.Z24X8_UNORM
  | PipeFormat.Z24_UNORM_S8_UINT | PipeFormat.X32_S8X24_UINT
  | PipeFormat.Z32_FLOAT_S8X24_UINT => true
  | _ => false

/-- Formats special-cased by the modern-generation table (all ten
depth/stencil formats). -/
def tu102SpecialFmt (p : PipeFormat) : Bool := depthStencilFmt p

/-- Format/element-size combination not covered by any listed special case of
the device generation's PTE-kind table: on the modern generation, any
non-special format; on the legacy generation, any non-special format whose
element bit width is outside the dispatched set 128/64/32/16/8. -/
def pteUncovered (dev : DevInfo) (f : Format) : Bool :=
  if TURING_A ≤ dev.cls_eng3d then !tu102SpecialFmt f.pipe
  else !nvc0SpecialFmt f.pipe &&
    !(f.el_size_B * 8 == 128 || f.el_size_B * 8 == 64 || f.el_size_B * 8 == 32 ||
      f.el_size_B * 8 == 16 || f.el_size_B * 8 == 8)

/-- Concrete tiling collaborator used by witnesses: a fixed one-GOB tiled
choice and an identity clamp. -/
def envA : TilingFns :=
  { choose := fun _ _ _ _ => ⟨true, 0, 0, 0⟩
    sparse := fun _ _ => ⟨true, 0, 0, 0⟩
    clamp := fun t _ => t }

/-- Concrete modern (Turing) device used by witnesses. -/
def devA : DevInfo := ⟨0xc597⟩

/-- Concrete legacy (Fermi) device used by witnesses. -/
def devLegacy : DevInfo := ⟨0x9097⟩

/-- Concrete 2-level 2-D non-sparse construction request (128x16 px, 4-byte
texels, one layer, one sample). -/
def infoA : ImageInitInfo :=
  { dim := ImageDim._2D, format := ⟨PipeFormat.R32_UINT, 4⟩
    extent_px := ⟨128, 16, 1, 1⟩, levels := 2, samples := 1, usage := 0 }

/-- The image built from `infoA` (levels at offsets 0 and 8192, layer size
10240, align 4096, total size 12288). -/
def imgA : Image := (Image.new envA devA infoA).getD defaultImage

/-- Result of isolating level 0 of `imgA`. -/
def lvlPairA0 : Image × Nat := (imgA.image_for_level 0).getD (defaultImage, 0)

/-- Result of isolating level 1 of `imgA`. -/
def lvlPairA1 : Image × Nat := (imgA.image_for_level 1).getD (defaultImage, 0)

/-- Concrete tiling collaborator whose clamp shrinks the Y factor once the
byte extent fits in eight rows; its sparse tiling uses `y_log2 = 1`. -/
def envB : TilingFns :=
  { choose := fun _ _ _ _ => ⟨true, 0, 1, 0⟩
    sparse := fun _ _ => ⟨true, 0, 1, 0⟩
    clamp := fun t e => if e.height ≤ 8 then { t with y_log2 := 0 } else t }

/-- Concrete sparse 2-level construction whose clamped tiling first diverges
at level 1. -/
def infoB : ImageInitInfo :=
  { dim := ImageDim._2D, format := ⟨PipeFormat.Other 3, 1⟩
    extent_px := ⟨64, 16, 1, 1⟩, levels := 2, samples := 1, usage := 4 }

/-- The sparse image built from `infoB` (`mip_tail_first_lod = 1`). -/
def imgB : Image := (Image.new envB devA infoB).getD defaultImage

/-- Concrete sparse single-level construction with no tiling divergence, so
its mip-tail index equals its level count. -/
def infoS : ImageInitInfo := { infoA with levels := 1, usage := 4 }

/-- The sparse image built from `infoS` (no mip tail:
`mip_tail_first_lod = num_levels = 1`). -/
def imgS : Image := (Image.new envA devA infoS).getD defaultImage

/-- Concrete tiling collaborator that always selects the linear tiling. -/
def envL : TilingFns := { envA with choose := fun _ _ _ _ => ⟨false, 0, 0, 0⟩ }

/-- Concrete linear construction request: 2-D, 130x7 px, 1-byte texels,
single level, single sample (the spec's 130-wide scenario). -/
def infoL : ImageInitInfo :=
  { dim := ImageDim._2D, format := ⟨PipeFormat.Other 7, 1⟩
    extent_px := ⟨130, 7, 1, 1⟩, levels := 1, samples := 1, usage := 2 }

/-- The linear image built from `infoL` (row stride 256). -/
def imgL : Image := (Image.new envL devA infoL).getD defaultImage

/-- Degenerate linear construction request with zero mip levels and four
samples: the level walk never runs, so none of the linear-image assertions
fire. -/
def infoL0 : ImageInitInfo := { infoL with levels := 0, samples := 4 }

/-- Hand-written two-level image with a mip tail starting at level 1, used to
exercise the mip-tail queries. -/
def imgTail : Image :=
  { dim := ImageDim._2D, format := ⟨PipeFormat.Other 1, 1⟩, extent_px := ⟨64, 16, 1, 1⟩
    sample_layout := SampleLayout._1x1, num_levels := 2, mip_tail_first_lod := 1
    levels := ⟨0, ⟨true, 0, 0, 0⟩, 64⟩ :: ⟨512, ⟨true, 0, 0, 0⟩, 64⟩ ::
      List.replicate 14 defaultImageLevel
    array_stride_B := 1024, align_B := 512, size_B := 1024, tile_mode := 0
    pte_kind := 0 }

theorem nextMultipleOf_dvd (n m : Nat) : m ∣ nextMultipleOf n m := by
  unfold nextMultipleOf
  split
  · simp
  · exact dvd_mul_left m ((n + m - 1) / m)

theorem le_nextMultipleOf (n : Nat) {m : Nat} (hm : 0 < m) : n ≤ nextMultipleOf n m := by
  unfold nextMultipleOf
  rw [if_neg (Nat.pos_iff_ne_zero.mp hm)]
  have h := Nat.div_add_mod (n + m - 1) m
  have hr : (n + m - 1) % m < m := Nat.mod_lt _ hm
  have h2 : (n + m - 1) / m * m = m * ((n + m - 1) / m) := Nat.mul_comm _ _
  omega

theorem nextMultipleOf_pos {n m : Nat} (hn : 0 < n) (hm : 0 < m) :
    0 < nextMultipleOf n m :=
  lt_of_lt_of_le hn (le_nextMultipleOf n hm)

theorem nextMultipleOf_eq_self {n m : Nat} (hm : 0 < m) (hd : m ∣ n) :
    nextMultipleOf n m = n := by
  obtain ⟨k, rfl⟩ := hd
  unfold nextMultipleOf
  rw [if_neg (Nat.pos_iff_ne_zero.mp hm)]
  have h1 : m * k + m - 1 = m * k + (m - 1) := by omega
  rw [h1, Nat.mul_add_div hm, Nat.div_eq_of_lt (by omega), Nat.add_zero,
    Nat.mul_comm]

theorem nextMultipleOf_one (n : Nat) : nextMultipleOf n 1 = n :=
  nextMultipleOf_eq_self Nat.one_pos (Nat.one_dvd n)

theorem nextMultipleOf_mod (n m : Nat) : nextMultipleOf n m % m = 0 :=
  Nat.eq_zero_of_dvd_of_lt (nextMultipleOf_dvd n m) |> fun _ =>
    Nat.mod_eq_zero_of_dvd (nextMultipleOf_dvd n m)

theorem Tiling.extent_B_pos (t : Tiling) :
    0 < t.extent_B.width ∧ 0 < t.extent_B.height ∧ 0 < t.extent_B.depth ∧
      t.extent_B.array_len = 1 := by
  unfold Tiling.extent_B
  split <;> refine ⟨?_, ?_, ?_, rfl⟩ <;> simp [Nat.shiftLeft_eq]

theorem Tiling.size_B_pos (t : Tiling) : 0 < t.size_B := by
  obtain ⟨h1, h2, h3, h4⟩ := t.extent_B_pos
  unfold Tiling.size_B Extent4D.size_B
  rw [h4, Nat.mul_one]
  exact Nat.mul_pos (Nat.mul_pos h1 h2) h3

theorem SampleLayout.grid_pos {s : SampleLayout} {g : Extent4D}
    (h : s.px_extent_sa = some g) :
    0 < g.width ∧ 0 < g.height ∧ g.depth = 1 ∧ g.array_len = 1 := by
  cases s <;> cases h <;> exact ⟨by decide, by decide, rfl, rfl⟩

theorem choose_sample_layout_eq_1x1 {s : Nat} :
    SampleLayout.choose_sample_layout s = SampleLayout._1x1 ↔ s = 1 := by
  unfold SampleLayout.choose_sample_layout
  split
  · simp_all
  · split <;> [skip; split <;> [skip; split <;> [skip; split]]] <;> simp_all

theorem levelExtentB_shape {ex : Extent4D} {f : Format} {s : SampleLayout} {k : Nat}
    {e : Extent4D} (h : levelExtentB ex f s k = some e) :
    (0 < f.el_size_B → 0 < e.width) ∧ 0 < e.height ∧ 0 < e.depth ∧
      e.array_len = ex.array_len := by
  unfold levelExtentB levelExtentPx at h
  split at h
  · rw [Option.some_bind] at h
    unfold Extent4D.to_B Extent4D.to_sa at h
    cases hg : s.px_extent_sa with
    | none => rw [hg] at h; cases h
    | some g =>
      rw [hg] at h
      obtain ⟨hw, hh, _, _⟩ := SampleLayout.grid_pos hg
      cases h
      have hminw : 0 < max 1 (ex.width >>> k) := le_max_left 1 _
      have hminh : 0 < max 1 (ex.height >>> k) := le_max_left 1 _
      have hmind : 0 < max 1 (ex.depth >>> k) := le_max_left 1 _
      exact ⟨fun hel => Nat.mul_pos (Nat.mul_pos hminw hw) hel,
        Nat.mul_pos hminh hh, hmind, rfl⟩
  · cases h

theorem level_size_B_congr {a b : Image} (k : Nat)
    (h1 : a.num_levels = b.num_levels) (h2 : a.extent_px = b.extent_px)
    (h3 : a.format = b.format) (h4 : a.sample_layout = b.sample_layout)
    (h5 : a.levels[k]? = b.levels[k]?) :
    a.level_size_B k = b.level_size_B k := by
  unfold Image.level_size_B Image.level_extent_B
  rw [h1, h2, h3, h4, h5]

theorem level_extent_B_congr {a b : Image} (k : Nat)
    (h2 : a.extent_px = b.extent_px) (h3 : a.format = b.format)
    (h4 : a.sample_layout = b.sample_layout) :
    a.level_extent_B k = b.level_extent_B k := by
  unfold Image.level_extent_B
  rw [h2, h3, h4]

theorem stepImage_spec {env : TilingFns} {t : Tiling} {level : Nat} {image : Image}
    {lsB : Nat} {ext : Extent4D} {img' : Image}
    (h : stepImage env t level image lsB ext = some img')
    (hlen : image.levels.length = 16) :
    level < 16 ∧
    img'.dim = image.dim ∧ img'.format = image.format ∧
    img'.extent_px = image.extent_px ∧ img'.sample_layout = image.sample_layout ∧
    img'.num_levels = image.num_levels ∧ img'.array_stride_B = image.array_stride_B ∧
    img'.align_B = image.align_B ∧ img'.size_B = image.size_B ∧
    img'.tile_mode = image.tile_mode ∧ img'.pte_kind = image.pte_kind ∧
    img'.levels.length = image.levels.length ∧
    (∀ j, j ≠ level → img'.levels[j]? = image.levels[j]?) ∧
    (t.is_tiled = true →
      img'.levels[level]? = some ⟨lsB, env.clamp t ext,
        (ext.align (env.clamp t ext).extent_B).width⟩ ∧
      img'.mip_tail_first_lod =
        (if t = env.clamp t ext then image.mip_tail_first_lod
         else min image.mip_tail_first_lod level)) ∧
    (t.is_tiled = false →
      img'.levels[level]? = some ⟨lsB, t, nextMultipleOf ext.width 128⟩ ∧
      img'.mip_tail_first_lod = image.mip_tail_first_lod ∧
      image.dim = ImageDim._2D ∧ image.num_levels = 1 ∧
      image.sample_layout = SampleLayout._1x1 ∧ ext.depth = 1) := by
  unfold stepImage at h
  by_cases htl : t.is_tiled
  · rw [if_pos htl] at h
    split at h
    · injection h with h
      subst h
      refine ⟨by omega, rfl, rfl, rfl, rfl, rfl, rfl, rfl, rfl, rfl, rfl,
        by simp, fun j hj => List.getElem?_set_ne (fun hh => hj hh.symm),
        fun _ => ⟨List.getElem?_set_self (by omega), rfl⟩,
        fun hf => absurd htl (by simp [hf])⟩
    · cases h
  · rw [if_neg htl] at h
    split at h
    · rename_i hguard
      obtain ⟨hd, hn, hs, hl16, hdep⟩ := hguard
      injection h with h
      subst h
      refine ⟨hl16, rfl, rfl, rfl, rfl, rfl, rfl, rfl, rfl, rfl, rfl,
        by simp, fun j hj => List.getElem?_set_ne (fun hh => hj hh.symm),
        fun ht => absurd ht (by simp_all),
        fun _ => ⟨List.getElem?_set_self (by omega), rfl, hd, hn, hs, hdep⟩⟩
    · cases h

theorem newLoop_terminal {env : TilingFns} {t : Tiling} {n fuel level : Nat}
    {image : Image} {lsB : Nat} {img' : Image} {tot : Nat}
    (hnl : n ≤ level) (h : newLoop env t n fuel level image lsB = some (img', tot)) :
    img' = image ∧ tot = lsB := by
  cases fuel <;>
    · unfold newLoop at h
      rw [if_neg (by omega)] at h
      injection h with h
      exact ⟨congrArg Prod.fst h.symm, congrArg Prod.snd h.symm⟩

theorem newLoop_succ_elim {env : TilingFns} {t : Tiling} {n fuel level : Nat}
    {image : Image} {lsB : Nat} {img' : Image} {tot : Nat}
    (hln : level < n)
    (h : newLoop env t n (fuel + 1) level image lsB = some (img', tot)) :
    ∃ ext image1 sz,
      image.level_extent_B level = some ext ∧
      stepImage env t level image lsB ext = some image1 ∧
      image1.level_size_B level = some sz ∧
      newLoop env t n fuel (level + 1) image1 (lsB + sz) = some (img', tot) := by
  unfold newLoop at h
  rw [if_pos hln] at h
  cases hext : image.level_extent_B level with
  | none => rw [hext, Option.none_bind] at h; cases h
  | some ext =>
    rw [hext, Option.some_bind] at h
    cases hstep : stepImage env t level image lsB ext with
    | none => rw [hstep, Option.none_bind] at h; cases h
    | some image1 =>
      rw [hstep, Option.some_bind] at h
      cases hsz : image1.level_size_B level with
      | none => rw [hsz, Option.none_bind] at h; cases h
      | some sz =>
        rw [hsz, Option.some_bind] at h
        exact ⟨ext, image1, sz, rfl, hstep, hsz, h⟩

theorem newLoop_fields {env : TilingFns} {t : Tiling} {n : Nat} :
    ∀ fuel level (image : Image) lsB img' tot,
      newLoop env t n fuel level image lsB = some (img', tot) →
      image.levels.length = 16 →
      img'.dim = image.dim ∧ img'.format = image.format ∧
      img'.extent_px = image.extent_px ∧ img'.sample_layout = image.sample_layout ∧
      img'.num_levels = image.num_levels ∧ img'.array_stride_B = image.array_stride_B ∧
      img'.align_B = image.align_B ∧ img'.size_B = image.size_B ∧
      img'.tile_mode = image.tile_mode ∧ img'.pte_kind = image.pte_kind ∧
      img'.levels.length = image.levels.length := by
  intro fuel
  induction fuel with
  | zero =>
    intro level image lsB img' tot h _
    unfold newLoop at h
    split at h
    · cases h
    · injection h with h
      have h1 : image = img' := congrArg Prod.fst h
      rw [← h1]
      exact ⟨rfl, rfl, rfl, rfl, rfl, rfl, rfl, rfl, rfl, rfl, rfl⟩
  | succ fuel ih =>
    intro level image lsB img' tot h hlen
    by_cases hln : level < n
    · obtain ⟨ext, image1, sz, hext, hstep, hsz, hrec⟩ := newLoop_succ_elim hln h
      obtain ⟨_, s1, s2, s3, s4, s5, s6, s7, s8, s9, s10, s11, _, _, _⟩ :=
        stepImage_spec hstep hlen
      obtain ⟨i1, i2, i3, i4, i5, i6, i7, i8, i9, i10, i11⟩ :=
        ih _ _ _ _ _ hrec (s11.trans hlen)
      exact ⟨i1.trans s1, i2.trans s2, i3.trans s3, i4.trans s4,
        i5.trans s5, i6.trans s6, i7.trans s7, i8.trans s8,
        i9.trans s9, i10.trans s10, i11.trans s11⟩
    · obtain ⟨h1, _⟩ := newLoop_terminal (by omega) h
      rw [h1]
      exact ⟨rfl, rfl, rfl, rfl, rfl, rfl, rfl, rfl, rfl, rfl, rfl⟩

theorem newLoop_frozen {env : TilingFns} {t : Tiling} {n : Nat} :
    ∀ fuel level (image : Image) lsB img' tot,
      newLoop env t n fuel level image lsB = some (img', tot) →
      image.levels.length = 16 →
      ∀ j, j < level → img'.levels[j]? = image.levels[j]? := by
  intro fuel
  induction fuel with
  | zero =>
    intro level image lsB img' tot h _ j hj
    unfold newLoop at h
    split at h
    · cases h
    · injection h with h
      have h1 : image = img' := congrArg Prod.fst h
      rw [← h1]
  | succ fuel ih =>
    intro level image lsB img' tot h hlen j hj
    by_cases hln : level < n
    · obtain ⟨ext, image1, sz, hext, hstep, hsz, hrec⟩ := newLoop_succ_elim hln h
      obtain ⟨_, _, _, _, _, _, _, _, _, _, _, s11, sfrozen, _, _⟩ :=
        stepImage_spec hstep hlen
      have h1 := ih _ _ _ _ _ hrec (s11.trans hlen) j (by omega)
      exact h1.trans (sfrozen j (by omega))
    · obtain ⟨h1, _⟩ := newLoop_terminal (by omega) h
      rw [h1]


theorem newLoop_spec {env : TilingFns} {t : Tiling} {n : Nat} :
    ∀ fuel level (image : Image) lsB img' tot,
      newLoop env t n fuel level image lsB = some (img', tot) →
      image.levels.length = 16 →
      image.num_levels = n →
      ∀ k, level ≤ k → k < n →
      ∃ ext e sz,
        img'.level_extent_B k = some ext ∧
        img'.levels[k]? = some e ∧
        img'.level_size_B k = some sz ∧
        (k = level → e.offset_B = lsB) ∧
        (∀ e', k + 1 < n → img'.levels[k + 1]? = some e' →
          e'.offset_B = e.offset_B + sz) ∧
        (k + 1 = n → tot = e.offset_B + sz) ∧
        (t.is_tiled = true →
          e.tiling = env.clamp t ext ∧
          e.row_stride_B = (ext.align (env.clamp t ext).extent_B).width ∧
          ((env.clamp t ext).is_tiled = true →
            sz = (ext.align (env.clamp t ext).extent_B).size_B)) ∧
        (t.is_tiled = false →
          e.tiling = t ∧ e.row_stride_B = nextMultipleOf ext.width 128 ∧
          sz = e.row_stride_B * ext.height ∧ ext.depth = 1) := by
  intro fuel
  induction fuel with
  | zero =>
    intro level image lsB img' tot h _ _ k hk1 hk2
    unfold newLoop at h
    split at h
    · cases h
    · omega
  | succ fuel ih =>
    intro level image lsB img' tot h hlen hnum k hk1 hk2
    have hln : level < n := by omega
    obtain ⟨ext0, image1, sz0, hext, hstep, hsz, hrec⟩ := newLoop_succ_elim hln h
    obtain ⟨hl16, s1, s2, s3, s4, s5, s6, s7, s8, s9, s10, s11, sfrozen, stl, slin⟩ :=
      stepImage_spec hstep hlen
    have hlen1 : image1.levels.length = 16 := s11.trans hlen
    have hnum1 : image1.num_levels = n := s5.trans hnum
    rcases Nat.lt_or_ge level k with hkgt | hkle
    · -- k is handled by the recursive call
      obtain ⟨ext, e, sz, c1, c2, c3, c4, c5, c6, c7, c8⟩ :=
        ih (level + 1) image1 (lsB + sz0) img' tot hrec hlen1 hnum1 k (by omega) hk2
      exact ⟨ext, e, sz, c1, c2, c3, fun hk => absurd hk (by omega), c5, c6, c7, c8⟩
    · -- k = level: the entry written by this iteration
      have hkeq : k = level := by omega
      subst hkeq
      obtain ⟨f1, f2, f3, f4, f5, f6, f7, f8, f9, f10, f11⟩ :=
        newLoop_fields fuel (k + 1) image1 (lsB + sz0) img' tot hrec hlen1
      have hfro : img'.levels[k]? = image1.levels[k]? :=
        newLoop_frozen fuel (k + 1) image1 (lsB + sz0) img' tot hrec hlen1 k (by omega)
      have hlex1 : image1.level_extent_B k = some ext0 :=
        (level_extent_B_congr k s3 s2 s4).trans hext
      have hlexF : img'.level_extent_B k = some ext0 :=
        (level_extent_B_congr k (f3.trans s3) (f2.trans s2) (f4.trans s4)).trans hext
      have hszF : img'.level_size_B k = some sz0 := by
        have := @level_size_B_congr img' image1 k (f5.trans rfl) f3 f2 f4 hfro
        exact this.trans hsz
      -- terminal-total clause
      have hterm : k + 1 = n → tot = lsB + sz0 := by
        intro hkn
        exact (newLoop_terminal (by omega) hrec).2
      by_cases htl : t.is_tiled
      · obtain ⟨hentry, _⟩ := stl htl
        refine ⟨ext0, _, sz0, hlexF, hfro.trans hentry, hszF, fun _ => rfl,
          ?_, fun hkn => by rw [hterm hkn], fun _ => ⟨rfl, rfl, ?_⟩,
          fun hf => absurd htl (by simp [hf])⟩
        · -- the next entry's offset
          intro e' hk1n he'
          obtain ⟨_, e1, _, _, d2, _, d4, _, _, _, _⟩ :=
            ih (k + 1) image1 (lsB + sz0) img' tot hrec hlen1 hnum1 (k + 1)
              (Nat.le_refl _) hk1n
          have he1 : e1 = e' := by
            rw [he'] at d2
            exact (Option.some.inj d2).symm
          rw [← he1, d4 rfl]
        · -- size of a tiled level with a tiled clamped tiling
          intro hct
          have hs1 : image1.level_size_B k =
              some ((ext0.align (env.clamp t ext0).extent_B).size_B) := by
            unfold Image.level_size_B
            rw [if_pos (by omega)]
            rw [hlex1, hentry]
            simp [hct]
          rw [hs1] at hsz
          exact (Option.some.inj hsz).symm
      · have htlf : t.is_tiled = false := by simpa using htl
        obtain ⟨hentry, _, hdim, hn1, hs1x1, hdep⟩ := slin htlf
        refine ⟨ext0, _, sz0, hlexF, hfro.trans hentry, hszF, fun _ => rfl,
          ?_, fun hkn => by rw [hterm hkn], fun ht => absurd ht (by simp [htlf]),
          fun _ => ⟨rfl, rfl, ?_, hdep⟩⟩
        · intro e' hk1n he'
          obtain ⟨_, e1, _, _, d2, _, d4, _, _, _, _⟩ :=
            ih (k + 1) image1 (lsB + sz0) img' tot hrec hlen1 hnum1 (k + 1)
              (Nat.le_refl _) hk1n
          have he1 : e1 = e' := by
            rw [he'] at d2
            exact (Option.some.inj d2).symm
          rw [← he1, d4 rfl]
        · -- size of a linear level
          have hs1 : image1.level_size_B k =
              some (nextMultipleOf ext0.width 128 * ext0.height) := by
            unfold Image.level_size_B
            rw [if_pos (by omega)]
            rw [hlex1, hentry]
            simp [htlf, hdep]
          rw [hs1] at hsz
          exact (Option.some.inj hsz).symm


theorem firstDivFrom_ge {p : Nat → Bool} {n : Nat} :
    ∀ fuel level, level ≤ n → level ≤ firstDivFrom p n fuel level := by
  intro fuel
  induction fuel with
  | zero => intro level h; unfold firstDivFrom; omega
  | succ fuel ih =>
    intro level h
    unfold firstDivFrom
    split
    · split
      · omega
      · have := ih (level + 1) (by omega)
        omega
    · omega

theorem firstDivFrom_le {p : Nat → Bool} {n : Nat} :
    ∀ fuel level, level ≤ n → firstDivFrom p n fuel level ≤ n := by
  intro fuel
  induction fuel with
  | zero => intro level h; unfold firstDivFrom; omega
  | succ fuel ih =>
    intro level h
    unfold firstDivFrom
    split
    · split
      · omega
      · exact ih (level + 1) (by omega)
    · omega

theorem firstDivFrom_div {p : Nat → Bool} {n : Nat} :
    ∀ fuel level, n ≤ fuel + level →
      firstDivFrom p n fuel level < n → p (firstDivFrom p n fuel level) = true := by
  intro fuel
  induction fuel with
  | zero =>
    intro level hfl hlt
    unfold firstDivFrom at hlt
    omega
  | succ fuel ih =>
    intro level hfl hlt
    unfold firstDivFrom at hlt ⊢
    split at hlt
    · rename_i hln
      split at hlt
      · rename_i hp
        rw [if_pos hln, if_pos hp]
        exact hp
      · rename_i hp
        rw [if_pos hln, if_neg hp]
        exact ih (level + 1) (by omega) hlt
    · omega

theorem firstDivFrom_min {p : Nat → Bool} {n : Nat} :
    ∀ fuel level, n ≤ fuel + level →
      ∀ j, level ≤ j → j < firstDivFrom p n fuel level → p j = false := by
  intro fuel
  induction fuel with
  | zero =>
    intro level hfl j hj hlt
    unfold firstDivFrom at hlt
    omega
  | succ fuel ih =>
    intro level hfl j hj hlt
    unfold firstDivFrom at hlt
    split at hlt
    · rename_i hln
      split at hlt
      · omega
      · rename_i hp
        rcases Nat.eq_or_lt_of_le hj with hje | hjgt
        · rw [← hje]
          simpa using hp
        · exact ih (level + 1) (by omega) j (by omega) hlt
    · omega

theorem firstDivFrom_all {p : Nat → Bool} {n : Nat} :
    ∀ fuel level, (∀ k, level ≤ k → k < n → p k = false) →
      firstDivFrom p n fuel level = n := by
  intro fuel
  induction fuel with
  | zero => intro level _; unfold firstDivFrom; rfl
  | succ fuel ih =>
    intro level hall
    unfold firstDivFrom
    split
    · rename_i hln
      rw [hall level (Nat.le_refl _) hln]
      simp only [if_false, Bool.false_eq_true]
      exact ih (level + 1) fun k hk1 hk2 => hall k (by omega) hk2
    · rfl

theorem newLoop_mip_linear {env : TilingFns} {t : Tiling} {n : Nat}
    (htl : t.is_tiled = false) :
    ∀ fuel level (image : Image) lsB img' tot,
      newLoop env t n fuel level image lsB = some (img', tot) →
      image.levels.length = 16 →
      img'.mip_tail_first_lod = image.mip_tail_first_lod := by
  intro fuel
  induction fuel with
  | zero =>
    intro level image lsB img' tot h _
    unfold newLoop at h
    split at h
    · cases h
    · injection h with h
      have h1 : image = img' := congrArg Prod.fst h
      rw [← h1]
  | succ fuel ih =>
    intro level image lsB img' tot h hlen
    by_cases hln : level < n
    · obtain ⟨ext, image1, sz, hext, hstep, hsz, hrec⟩ := newLoop_succ_elim hln h
      obtain ⟨_, _, _, _, _, _, _, _, _, _, _, s11, _, _, slin⟩ :=
        stepImage_spec hstep hlen
      obtain ⟨m1, _⟩ := slin htl
      obtain ⟨_, m2, _⟩ := slin htl
      have := ih _ _ _ _ _ hrec (s11.trans hlen)
      rw [this, m2]
    · obtain ⟨h1, _⟩ := newLoop_terminal (by omega) h
      rw [h1]

theorem newLoop_mip_tiled {env : TilingFns} {t : Tiling} {n : Nat} {ex : Extent4D}
    {fm : Format} {sl : SampleLayout} (htl : t.is_tiled = true) :
    ∀ fuel level (image : Image) lsB img' tot,
      newLoop env t n fuel level image lsB = some (img', tot) →
      image.levels.length = 16 →
      image.extent_px = ex → image.format = fm → image.sample_layout = sl →
      image.mip_tail_first_lod ≤ n →
      img'.mip_tail_first_lod =
        min image.mip_tail_first_lod
          (firstDivFrom (divergesB env t ex fm sl) n fuel level) := by
  intro fuel
  induction fuel with
  | zero =>
    intro level image lsB img' tot h _ _ _ _ hmip
    unfold newLoop at h
    split at h
    · cases h
    · injection h with h
      have h1 : image = img' := congrArg Prod.fst h
      rw [← h1]
      unfold firstDivFrom
      omega
  | succ fuel ih =>
    intro level image lsB img' tot h hlen hex hfm hsl hmip
    by_cases hln : level < n
    · obtain ⟨ext, image1, sz, hext, hstep, hsz, hrec⟩ := newLoop_succ_elim hln h
      obtain ⟨_, _, s2, s3, s4, _, _, _, _, _, _, s11, _, stl, _⟩ :=
        stepImage_spec hstep hlen
      obtain ⟨_, hmip1⟩ := stl htl
      -- the divergence test at this level agrees with the branch taken
      have hpl : divergesB env t ex fm sl level = decide (env.clamp t ext ≠ t) := by
        unfold divergesB
        have hx : levelExtentB ex fm sl level = some ext := by
          rw [← hex, ← hfm, ← hsl]
          exact hext
        rw [hx]
      have hrec2 := ih _ _ _ _ _ hrec (s11.trans hlen) (s3.trans hex)
        (s2.trans hfm) (s4.trans hsl) ?hm
      case hm =>
        rw [hmip1]
        split
        · exact hmip
        · omega
      have hF1 : level + 1 ≤ firstDivFrom (divergesB env t ex fm sl) n fuel (level + 1) ∨
          n < level + 1 := by
        by_cases hc : level + 1 ≤ n
        · exact Or.inl (firstDivFrom_ge fuel (level + 1) hc)
        · exact Or.inr (by omega)
      unfold firstDivFrom
      rw [if_pos hln]
      by_cases hdv : t = env.clamp t ext
      · have hp : divergesB env t ex fm sl level = false := by
          rw [hpl]
          simp [← hdv]
        rw [hp]
        simp only [if_false, Bool.false_eq_true]
        rw [hrec2, hmip1, if_pos hdv]
      · have hp : divergesB env t ex fm sl level = true := by
          rw [hpl]
          simp
          exact fun hc => hdv hc.symm
        rw [hp]
        simp only [if_true]
        rw [hrec2, hmip1, if_neg hdv]
        rcases hF1 with hF | hF
        · omega
        · omega
    · obtain ⟨h1, _⟩ := newLoop_terminal (by omega) h
      rw [h1]
      unfold firstDivFrom
      rw [if_neg hln]
      omega


theorem finishImage_spec {dev : DevInfo} {sparse : Bool} {format : Format}
    {samples : Nat} {image : Image} {lsB : Nat} {img' : Image}
    (h : finishImage dev sparse format samples image lsB = some img') :
    img'.dim = image.dim ∧ img'.format = image.format ∧
    img'.extent_px = image.extent_px ∧ img'.sample_layout = image.sample_layout ∧
    img'.num_levels = image.num_levels ∧
    img'.mip_tail_first_lod = image.mip_tail_first_lod ∧
    img'.levels = image.levels ∧
    ∃ lvl0, image.levels[0]? = some lvl0 ∧
      img'.array_stride_B = nextMultipleOf lsB lvl0.tiling.size_B ∧
      img'.size_B =
        nextMultipleOf (img'.array_stride_B * image.extent_px.array_len) img'.align_B ∧
      0 < img'.align_B ∧
      (lvl0.tiling.is_tiled = false → 128 ≤ img'.align_B) := by
  unfold finishImage at h
  cases h0 : image.levels[0]? with
  | none => rw [h0] at h; cases h
  | some lvl0 =>
    rw [h0] at h
    simp only [Option.some_bind] at h
    by_cases htl : lvl0.tiling.is_tiled
    · rw [if_pos htl] at h
      cases hp : choose_pte_kind dev format samples false with
      | none => rw [hp] at h; cases h
      | some pte =>
        rw [hp] at h
        simp only [Option.some_bind] at h
        injection h with h
        subst h
        refine ⟨rfl, rfl, rfl, rfl, rfl, rfl, rfl, lvl0, rfl, rfl, rfl, ?_,
          fun hf => absurd htl (by simp [hf])⟩
        dsimp only
        unfold alignTiled
        split
        · exact lt_of_lt_of_le (by norm_num) (le_max_right _ _)
        · exact lt_of_lt_of_le (by norm_num) (le_max_right _ _)
    · rw [if_neg htl] at h
      injection h with h
      subst h
      refine ⟨rfl, rfl, rfl, rfl, rfl, rfl, rfl, lvl0, rfl, rfl, rfl, ?_, fun _ => ?_⟩ <;>
        · dsimp only
          unfold alignLinear
          first
          | exact lt_of_lt_of_le (by norm_num) (le_max_right _ _)
          | exact le_max_right _ _

theorem new_elim {env : TilingFns} {dev : DevInfo} {info : ImageInitInfo} {img : Image}
    (h : Image.new env dev info = some img) :
    dimCheckOk info = true ∧
    ∃ image1 lsB,
      newLoop env (selectedTiling env info) info.levels info.levels 0
        (initImage info) 0 = some (image1, lsB) ∧
      finishImage dev (sparseRequested info) info.format info.samples image1 lsB =
        some img := by
  unfold Image.new at h
  split at h
  · rename_i hdim
    cases hx : newLoop env (selectedTiling env info) info.levels info.levels 0
        (initImage info) 0 with
    | none => rw [hx] at h; cases h
    | some pr =>
      obtain ⟨image1, lsB⟩ := pr
      rw [hx] at h
      exact ⟨hdim, image1, lsB, rfl, h⟩
  · cases h

theorem initImage_len (info : ImageInitInfo) : (initImage info).levels.length = 16 := by
  unfold initImage
  simp

theorem initImage_num (info : ImageInitInfo) : (initImage info).num_levels = info.levels :=
  rfl


theorem image_for_level_elim {img : Image} {level : Nat} {img' : Image} {off : Nat}
    (h : img.image_for_level level = some (img', off)) :
    ∃ px lvl size_B,
      level < img.num_levels ∧
      img.level_extent_px level = some px ∧
      img.levels[level]? = some lvl ∧
      lvl.offset_B ≤ img.size_B ∧
      off = lvl.offset_B ∧
      (level + 1 < img.num_levels →
        ∃ next, img.levels[level + 1]? = some next ∧
          lvl.offset_B < next.offset_B ∧
          next.offset_B - lvl.offset_B ≤ img.size_B - lvl.offset_B ∧
          size_B = img.size_B - lvl.offset_B - (next.offset_B - lvl.offset_B)) ∧
      (¬ level + 1 < img.num_levels → size_B = img.size_B - lvl.offset_B) ∧
      img' = { img with
                 extent_px := px
                 num_levels := 1
                 levels := (List.replicate 16 defaultImageLevel).set 0
                   { lvl with offset_B := 0 }
                 align_B := lvl.tiling.size_B
                 size_B := size_B
                 mip_tail_first_lod :=
                   if level < img.mip_tail_first_lod then 1 else 0 } := by
  unfold Image.image_for_level at h
  split at h
  · rename_i hlt
    cases hpx : img.level_extent_px level with
    | none => rw [hpx, Option.none_bind] at h; cases h
    | some px =>
      rw [hpx, Option.some_bind] at h
      cases hlvl : img.levels[level]? with
      | none => rw [hlvl, Option.none_bind] at h; cases h
      | some lvl =>
        rw [hlvl, Option.some_bind] at h
        split at h
        · rename_i hofs
          by_cases hnx : level + 1 < img.num_levels
          · rw [if_pos hnx] at h
            cases hnext : img.levels[level + 1]? with
            | none => rw [hnext, Option.none_bind] at h; cases h
            | some next =>
              rw [hnext, Option.some_bind] at h
              split at h
              · rename_i hord
                rw [Option.some_bind] at h
                injection h with h
                have h1 := congrArg Prod.fst h
                have h2 := congrArg Prod.snd h
                dsimp only at h1 h2
                exact ⟨px, lvl,
                  img.size_B - lvl.offset_B - (next.offset_B - lvl.offset_B),
                  hlt, rfl, rfl, hofs, h2.symm,
                  fun _ => ⟨next, rfl, hord.1, hord.2, rfl⟩,
                  fun hc => absurd hnx hc, h1.symm⟩
              · cases h
          · rw [if_neg hnx, Option.some_bind] at h
            injection h with h
            have h1 := congrArg Prod.fst h
            have h2 := congrArg Prod.snd h
            dsimp only at h1 h2
            exact ⟨px, lvl, img.size_B - lvl.offset_B, hlt, rfl, rfl, hofs, h2.symm,
              fun hc => absurd hc hnx, fun _ => rfl, h1.symm⟩
        · cases h
  · cases h


/-- C9: `choose_sample_layout` is a total, deterministic map sending 1, 2, 4,
8, 16 to the (1,1), (2,1), (2,2), (4,2), (4,4) grids and every other sample
count to the `Invalid` sentinel, and querying the grid extent
(`px_extent_sa`) of the `Invalid` sentinel fails fatally. -/
theorem c9_sample_layout_total :
    SampleLayout.choose_sample_layout 1 = SampleLayout._1x1 ∧
    SampleLayout.choose_sample_layout 2 = SampleLayout._2x1 ∧
    SampleLayout.choose_sample_layout 4 = SampleLayout._2x2 ∧
    SampleLayout.choose_sample_layout 8 = SampleLayout._4x2 ∧
    SampleLayout.choose_sample_layout 16 = SampleLayout._4x4 ∧
    (∀ s, s ≠ 1 → s ≠ 2 → s ≠ 4 → s ≠ 8 → s ≠ 16 →
      SampleLayout.choose_sample_layout s = SampleLayout.Invalid) ∧
    SampleLayout.px_extent_sa SampleLayout._1x1 = some ⟨1, 1, 1, 1⟩ ∧
    SampleLayout.px_extent_sa SampleLayout._2x1 = some ⟨2, 1, 1, 1⟩ ∧
    SampleLayout.px_extent_sa SampleLayout._2x2 = some ⟨2, 2, 1, 1⟩ ∧
    SampleLayout.px_extent_sa SampleLayout._4x2 = some ⟨4, 2, 1, 1⟩ ∧
    SampleLayout.px_extent_sa SampleLayout._4x4 = some ⟨4, 4, 1, 1⟩ ∧
    SampleLayout.px_extent_sa SampleLayout.Invalid = none := by
  refine ⟨rfl, rfl, rfl, rfl, rfl, ?_, rfl, rfl, rfl, rfl, rfl, rfl⟩
  intro s h1 h2 h4 h8 h16
  unfold SampleLayout.choose_sample_layout
  rw [if_neg h1, if_neg h2, if_neg h4, if_neg h8, if_neg h16]

/-- Witness for C9 at the concrete unsupported sample count 7. -/
theorem c9_witness : SampleLayout.choose_sample_layout 7 = SampleLayout.Invalid :=
  c9_sample_layout_total.2.2.2.2.2.1 7 (by decide) (by decide) (by decide)
    (by decide) (by decide)

/-- C7: in the legacy table, every non-depth format with 32-bit elements gets
no compressed PTE kind at one sample (the compressed request resolves to the
same code, 0xfe, as the uncompressed one), while sample counts 2, 4 and 8
resolve to the three distinct compressed codes 0xdd, 0xdf, 0xe4, all
different from each other and from the uncompressed code. -/
theorem c7_legacy_32bit_carveout (f : Format)
    (hd : depthStencilFmt f.pipe = false) (hsz : f.el_size_B = 4) :
    nvc0_choose_pte_kind f 1 true = nvc0_choose_pte_kind f 1 false ∧
    nvc0_choose_pte_kind f 1 false = some 0xfe ∧
    nvc0_choose_pte_kind f 2 true = some 0xdd ∧
    nvc0_choose_pte_kind f 4 true = some 0xdf ∧
    nvc0_choose_pte_kind f 8 true = some 0xe4 ∧
    nvc0_choose_pte_kind f 2 true ≠ nvc0_choose_pte_kind f 4 true ∧
    nvc0_choose_pte_kind f 2 true ≠ nvc0_choose_pte_kind f 8 true ∧
    nvc0_choose_pte_kind f 4 true ≠ nvc0_choose_pte_kind f 8 true ∧
    nvc0_choose_pte_kind f 2 true ≠ nvc0_choose_pte_kind f 2 false ∧
    nvc0_choose_pte_kind f 4 true ≠ nvc0_choose_pte_kind f 4 false ∧
    nvc0_choose_pte_kind f 8 true ≠ nvc0_choose_pte_kind f 8 false := by
  obtain ⟨p, sz⟩ := f
  have hsz' : sz = 4 := hsz
  subst hsz'
  cases p <;> first
    | exact absurd hd (by decide)
    | exact ⟨rfl, rfl, rfl, rfl, rfl,
        (by decide : (some 0xdd : Option Nat) ≠ some 0xdf),
        (by decide : (some 0xdd : Option Nat) ≠ some 0xe4),
        (by decide : (some 0xdf : Option Nat) ≠ some 0xe4),
        (by decide : (some 0xdd : Option Nat) ≠ some 0xfe),
        (by decide : (some 0xdf : Option Nat) ≠ some 0xfe),
        (by decide : (some 0xe4 : Option Nat) ≠ some 0xfe)⟩

/-- Witness for C7 at the concrete 32-bit non-depth format `R32_UINT`. -/
theorem c7_witness :
    depthStencilFmt PipeFormat.R32_UINT = false ∧
    nvc0_choose_pte_kind ⟨PipeFormat.R32_UINT, 4⟩ 1 true =
      nvc0_choose_pte_kind ⟨PipeFormat.R32_UINT, 4⟩ 1 false ∧
    nvc0_choose_pte_kind ⟨PipeFormat.R32_UINT, 4⟩ 2 true = some 0xdd :=
  ⟨by decide, (c7_legacy_32bit_carveout ⟨PipeFormat.R32_UINT, 4⟩ (by decide) rfl).1,
    (c7_legacy_32bit_carveout ⟨PipeFormat.R32_UINT, 4⟩ (by decide) rfl).2.2.1⟩


/-- C6 (amended): for every supported generation, every format whose
combination is not covered by a listed special case of that generation's
table resolves, at any positive sample count and either compression flag, to
the default code 0 and the lookup never fails.  (As literally stated the
claim is refuted by `c6_counterexample`: at sample count 0 the legacy lookup
fails on `samples.ilog2()` before consulting the table.) -/
theorem c6_pte_default {dev : DevInfo} {f : Format} {samples : Nat}
    {compressed : Bool} (hgen : FERMI_A ≤ dev.cls_eng3d) (hs : 0 < samples)
    (hunc : pteUncovered dev f = true) :
    choose_pte_kind dev f samples compressed = some 0 := by
  unfold choose_pte_kind
  unfold pteUncovered at hunc
  by_cases ht : TURING_A ≤ dev.cls_eng3d
  · rw [if_pos ht] at hunc ⊢
    congr 1
    unfold tu102_choose_pte_kind
    have hspec : tu102SpecialFmt f.pipe = false := by
      cases hsp : tu102SpecialFmt f.pipe
      · rfl
      · rw [hsp] at hunc; cases hunc
    cases hp : f.pipe <;> rw [hp] at hspec <;>
      first
        | rfl
        | exact absurd hspec (by decide)
  · rw [if_neg ht, if_pos hgen]
    rw [if_neg ht] at hunc
    have hunc' := Bool.and_eq_true_iff.mp hunc
    obtain ⟨hspec, hsz⟩ := hunc'
    have hspec' : nvc0SpecialFmt f.pipe = false := by
      cases hq : nvc0SpecialFmt f.pipe
      · rfl
      · rw [hq] at hspec; cases hspec
    have hb : f.el_size_B * 8 ≠ 128 ∧ f.el_size_B * 8 ≠ 64 ∧ f.el_size_B * 8 ≠ 32 ∧
        f.el_size_B * 8 ≠ 16 ∧ f.el_size_B * 8 ≠ 8 := by
      simp only [Bool.not_eq_true'] at hsz
      simp only [Bool.or_eq_false_iff] at hsz
      obtain ⟨⟨⟨⟨h1, h2⟩, h3⟩, h4⟩, h5⟩ := hsz
      exact ⟨by simpa using h1, by simpa using h2, by simpa using h3,
        by simpa using h4, by simpa using h5⟩
    unfold nvc0_choose_pte_kind
    rw [show ilog2? samples = some (lg2 samples) from by
      unfold ilog2?; rw [if_neg (by omega)]]
    rw [Option.some_bind]
    obtain ⟨hb1, hb2, hb3, hb4, hb5⟩ := hb
    cases hp : f.pipe <;> rw [hp] at hspec' <;>
      first
        | exact absurd hspec' (by decide)
        | · show (if f.el_size_B * 8 = 128 then _ else _) = some 0
            rw [if_neg hb1, if_neg hb2, if_neg hb3, if_neg (by
              intro hc
              rcases hc with hc | hc
              · exact hb4 hc
              · exact hb5 hc)]

/-- Counterexample to C6 as stated: on the supported legacy generation, a
24-bit-element format (covered by no listed special case) with sample count 0
makes the PTE-kind lookup fail, even though the generation class is
supported. -/
theorem c6_counterexample :
    FERMI_A ≤ devLegacy.cls_eng3d ∧
    pteUncovered devLegacy ⟨PipeFormat.Other 0, 3⟩ = true ∧
    choose_pte_kind devLegacy ⟨PipeFormat.Other 0, 3⟩ 0 false = none := by decide

/-- Witness for C6 at a concrete uncovered legacy combination. -/
theorem c6_witness :
    FERMI_A ≤ devLegacy.cls_eng3d ∧ 0 < 1 ∧
    pteUncovered devLegacy ⟨PipeFormat.Other 0, 3⟩ = true ∧
    choose_pte_kind devLegacy ⟨PipeFormat.Other 0, 3⟩ 1 true = some 0 :=
  ⟨by decide, by decide, by decide, c6_pte_default (by decide) (by decide) (by decide)⟩


/-- C5 (amended): the mip-tail queries fail fatally exactly when the stored
mip-tail index is the unset sentinel 0 — which covers every non-sparse image —
and, when the index is positive and stores an entry, `mip_tail_offset_B`
returns that entry's stored offset and `mip_tail_size_B` returns
`array_stride_B` minus that offset.  (As literally stated the claim is
refuted by `c5_counterexample`: a sparse image whose tail index equals its
level count has no mip tail, yet its queries succeed, reading the
default-initialized entry at that index.) -/
theorem c5_mip_tail_queries (img : Image) :
    (img.mip_tail_first_lod = 0 →
      img.mip_tail_offset_B = none ∧ img.mip_tail_size_B = none) ∧
    (∀ e, 0 < img.mip_tail_first_lod →
      img.levels[img.mip_tail_first_lod]? = some e →
      img.mip_tail_offset_B = some e.offset_B ∧
      (e.offset_B ≤ img.array_stride_B → img.array_stride_B - e.offset_B < 2 ^ 32 →
        img.mip_tail_size_B = some (img.array_stride_B - e.offset_B))) := by
  constructor
  · intro h0
    have hoff : img.mip_tail_offset_B = none := by
      unfold Image.mip_tail_offset_B
      rw [if_neg (by omega)]
    refine ⟨hoff, ?_⟩
    unfold Image.mip_tail_size_B
    rw [hoff]
  · intro e hpos he
    have hoff : img.mip_tail_offset_B = some e.offset_B := by
      unfold Image.mip_tail_offset_B
      rw [if_pos hpos, he]
      rfl
    refine ⟨hoff, fun h1 h2 => ?_⟩
    unfold Image.mip_tail_size_B
    rw [hoff]
    exact if_pos ⟨h1, h2⟩

/-- Counterexample to C5 as stated: a successfully constructed sparse image
whose mip-tail index equals its level count (so it has no mip tail according
to the claim), on which both mip-tail queries nevertheless succeed. -/
theorem c5_counterexample :
    Image.new envA devA infoS = some imgS ∧
    sparseRequested infoS = true ∧
    imgS.mip_tail_first_lod = imgS.num_levels ∧
    imgS.mip_tail_offset_B = some 0 ∧
    imgS.mip_tail_size_B = some 8192 := by decide

/-- Witness for C5 on a concrete image with a mip tail at level 1. -/
theorem c5_witness :
    imgTail.mip_tail_first_lod = 1 ∧
    imgTail.mip_tail_offset_B = some 512 ∧
    imgTail.mip_tail_size_B = some 512 :=
  ⟨rfl,
    ((c5_mip_tail_queries imgTail).2 ⟨512, ⟨true, 0, 0, 0⟩, 64⟩ (by decide)
      (by decide)).1,
    ((c5_mip_tail_queries imgTail).2 ⟨512, ⟨true, 0, 0, 0⟩, 64⟩ (by decide)
      (by decide)).2 (by decide) (by decide)⟩

/-- C10: isolating a level copies the source image's `dim`, `format`,
`sample_layout`, `array_stride_B`, `tile_mode` and `pte_kind` unchanged into
the result (the embedding is pure, mirroring the Rust `&self` receiver: the
source value itself cannot be modified). -/
theorem c10_image_for_level_frame {img : Image} {level : Nat} {img' : Image}
    {off : Nat} (h : img.image_for_level level = some (img', off)) :
    img'.dim = img.dim ∧ img'.format = img.format ∧
    img'.sample_layout = img.sample_layout ∧
    img'.array_stride_B = img.array_stride_B ∧
    img'.tile_mode = img.tile_mode ∧ img'.pte_kind = img.pte_kind := by
  obtain ⟨px, lvl, size_B, _, _, _, _, _, _, _, himg⟩ := image_for_level_elim h
  rw [himg]
  exact ⟨rfl, rfl, rfl, rfl, rfl, rfl⟩

/-- Witness for C10: isolate level 1 of the concrete image `imgA`. -/
theorem c10_witness :
    imgA.image_for_level 1 = some (lvlPairA1.1, lvlPairA1.2) ∧
    lvlPairA1.1.dim = imgA.dim ∧ lvlPairA1.1.format = imgA.format ∧
    lvlPairA1.1.sample_layout = imgA.sample_layout ∧
    lvlPairA1.1.array_stride_B = imgA.array_stride_B ∧
    lvlPairA1.1.tile_mode = imgA.tile_mode ∧
    lvlPairA1.1.pte_kind = imgA.pte_kind := by
  have h := @c10_image_for_level_frame imgA 1 lvlPairA1.1 lvlPairA1.2 (by decide)
  exact ⟨by decide, h.1, h.2.1, h.2.2.1, h.2.2.2.1, h.2.2.2.2.1, h.2.2.2.2.2⟩

/-- C3 (code bug): evaluation at the failing input.  The claim (and the spec)
state that isolating a non-last level yields `size_B = levels[level+1].offset_B
- levels[level].offset_B`; the code instead computes `size_B - next_offset` of
the source image.  For the concrete 2-level image `imgA` (offsets 0 and 8192,
`size_B = 12288`), isolating level 0 yields 4096 instead of the claimed 8192 —
the isolated image is smaller than its own level's data. -/
theorem c3_size_divergence :
    Image.new envA devA infoA = some imgA ∧
    imgA.size_B = 12288 ∧
    (imgA.levels.map (fun l => l.offset_B)).take 2 = [0, 8192] ∧
    imgA.image_for_level 0 = some (lvlPairA0.1, 0) ∧
    lvlPairA0.1.size_B = 4096 ∧
    lvlPairA0.1.size_B ≠ 8192 := by decide

/-- C2: for every successfully constructed image, `array_stride_B` is a
multiple of level 0's tiling byte size, `size_B` is a multiple of `align_B`,
and `size_B` equals `array_stride_B * array_layer_count` rounded up to
`align_B`. -/
theorem c2_stride_size_align {env : TilingFns} {dev : DevInfo}
    {info : ImageInitInfo} {img : Image} (h : Image.new env dev info = some img) :
    ∀ e0, img.levels[0]? = some e0 →
      img.array_stride_B % e0.tiling.size_B = 0 ∧
      img.size_B % img.align_B = 0 ∧
      img.size_B =
        nextMultipleOf (img.array_stride_B * img.extent_px.array_len) img.align_B := by
  obtain ⟨hdim, image1, lsB, hloop, hfin⟩ := new_elim h
  obtain ⟨g1, g2, g3, g4, g5, g6, g7, lvl0, hlvl0, hstride, hsize, halign, _⟩ :=
    finishImage_spec hfin
  intro e0 he0
  rw [g7, hlvl0] at he0
  obtain rfl := Option.some.inj he0
  refine ⟨?_, ?_, ?_⟩
  · rw [hstride]
    exact nextMultipleOf_mod lsB lvl0.tiling.size_B
  · rw [hsize]
    exact nextMultipleOf_mod _ img.align_B
  · rw [hsize, g3]

/-- Witness for C2 on the concrete image `imgA`. -/
theorem c2_witness :
    Image.new envA devA infoA = some imgA ∧
    imgA.levels[0]? = some ⟨0, ⟨true, 0, 0, 0⟩, 512⟩ ∧
    imgA.array_stride_B % (⟨0, ⟨true, 0, 0, 0⟩, 512⟩ : ImageLevel).tiling.size_B = 0 ∧
    imgA.size_B % imgA.align_B = 0 ∧
    imgA.size_B =
      nextMultipleOf (imgA.array_stride_B * imgA.extent_px.array_len) imgA.align_B := by
  have h := @c2_stride_size_align envA devA infoA imgA (by decide)
    ⟨0, ⟨true, 0, 0, 0⟩, 512⟩ (by decide)
  exact ⟨by decide, by decide, h.1, h.2.1, h.2.2⟩


/-- C4: for every sparse-residency construction (with the generation's sparse
tiling an actual tiled layout), the resulting `mip_tail_first_lod` is the
lowest level index whose clamped tiling differs from the base sparse tiling,
or the requested level count when no level diverges; for every non-sparse
construction it remains the sentinel 0. -/
theorem c4_mip_tail_first_lod {env : TilingFns} {dev : DevInfo}
    {info : ImageInitInfo} {img : Image} (h : Image.new env dev info = some img) :
    (sparseRequested info = true →
      (env.sparse info.format info.dim.reprVal).is_tiled = true →
      img.mip_tail_first_lod ≤ info.levels ∧
      (img.mip_tail_first_lod < info.levels →
        divergesB env (env.sparse info.format info.dim.reprVal) info.extent_px
          info.format (SampleLayout.choose_sample_layout info.samples)
          img.mip_tail_first_lod = true ∧
        ∀ j, j < img.mip_tail_first_lod →
          divergesB env (env.sparse info.format info.dim.reprVal) info.extent_px
            info.format (SampleLayout.choose_sample_layout info.samples) j =
            false) ∧
      (img.mip_tail_first_lod = info.levels ↔
        ∀ k, k < info.levels →
          divergesB env (env.sparse info.format info.dim.reprVal) info.extent_px
            info.format (SampleLayout.choose_sample_layout info.samples) k =
            false)) ∧
    (sparseRequested info = false → img.mip_tail_first_lod = 0) := by
  obtain ⟨hdim, image1, lsB, hloop, hfin⟩ := new_elim h
  obtain ⟨_, _, _, _, _, g6, _, _⟩ := finishImage_spec hfin
  constructor
  · intro hsp htl
    have hsel : selectedTiling env info = env.sparse info.format info.dim.reprVal := by
      unfold selectedTiling
      rw [if_pos hsp]
    rw [hsel] at hloop
    have hmip0 : (initImage info).mip_tail_first_lod = info.levels := by
      unfold initImage
      rw [hsp]
      rfl
    have hm := @newLoop_mip_tiled env (env.sparse info.format info.dim.reprVal)
      info.levels info.extent_px info.format
      (SampleLayout.choose_sample_layout info.samples) htl
      info.levels 0 (initImage info) 0 image1 lsB hloop (initImage_len info)
      rfl rfl rfl (by rw [hmip0])
    rw [hmip0] at hm
    set p := divergesB env (env.sparse info.format info.dim.reprVal) info.extent_px
      info.format (SampleLayout.choose_sample_layout info.samples) with hp
    have hFle : firstDivFrom p info.levels info.levels 0 ≤ info.levels :=
      firstDivFrom_le info.levels 0 (Nat.zero_le _)
    have hmin : img.mip_tail_first_lod = firstDivFrom p info.levels info.levels 0 := by
      rw [g6, hm]
      omega
    refine ⟨by omega, fun hlt => ?_, ?_⟩
    · constructor
      · rw [hmin]
        exact @firstDivFrom_div p info.levels info.levels 0 (by omega) (by omega)
      · intro j hj
        exact @firstDivFrom_min p info.levels info.levels 0 (by omega) j
          (Nat.zero_le _) (by omega)
    · constructor
      · intro heq k hk
        exact @firstDivFrom_min p info.levels info.levels 0 (by omega) k
          (Nat.zero_le _) (by omega)
      · intro hall
        rw [hmin]
        exact @firstDivFrom_all p info.levels info.levels 0
          fun k _ hk => hall k hk
  · intro hsp
    have hmip0 : (initImage info).mip_tail_first_lod = 0 := by
      unfold initImage
      rw [hsp]
      rfl
    rw [g6]
    by_cases htl : (selectedTiling env info).is_tiled
    · have hm := @newLoop_mip_tiled env (selectedTiling env info) info.levels
        info.extent_px info.format
        (SampleLayout.choose_sample_layout info.samples) htl
        info.levels 0 (initImage info) 0 image1 lsB hloop (initImage_len info)
        rfl rfl rfl (by rw [hmip0]; omega)
      rw [hm, hmip0]
      omega
    · have htlf : (selectedTiling env info).is_tiled = false := by simpa using htl
      have hm := newLoop_mip_linear htlf info.levels 0 (initImage info) 0 image1 lsB
        hloop (initImage_len info)
      rw [hm, hmip0]

/-- Witness for C4 on the concrete sparse image `imgB`, whose clamped tiling
first diverges at level 1. -/
theorem c4_witness :
    Image.new envB devA infoB = some imgB ∧
    sparseRequested infoB = true ∧
    (envB.sparse infoB.format infoB.dim.reprVal).is_tiled = true ∧
    imgB.mip_tail_first_lod = 1 ∧
    divergesB envB (envB.sparse infoB.format infoB.dim.reprVal) infoB.extent_px
      infoB.format (SampleLayout.choose_sample_layout infoB.samples) 1 = true := by
  have h := (@c4_mip_tail_first_lod envB devA infoB imgB (by decide)).1
    (by decide) (by decide)
  refine ⟨by decide, by decide, by decide, by decide, ?_⟩
  have h2 := (h.2.1 (by decide)).1
  have hm : imgB.mip_tail_first_lod = 1 := by decide
  rw [hm] at h2
  exact h2


/-- C8 (amended): a construction whose selected tiling is linear and which
lays out at least one level fails fatally unless the image is 2-D with a
single mip level and a single sample; when it succeeds, the single level sits
at offset 0 with `row_stride_B` equal to the byte-extent width rounded up to
the next multiple of 128, its byte size is `row_stride_B` times the level-0
pixel height, and the final `align_B` is at least 128.  (As literally stated
the claim is refuted by `c8_counterexample`: a linear construction requesting
zero mip levels never runs the level walk, so none of its assertions fire and
it succeeds even though it is neither single-level nor single-sample.) -/
theorem c8_linear_layout {env : TilingFns} {dev : DevInfo} {info : ImageInitInfo}
    (hlin : (selectedTiling env info).is_tiled = false) (hpos : 0 < info.levels) :
    (¬(info.dim = ImageDim._2D ∧ info.levels = 1 ∧ info.samples = 1) →
      Image.new env dev info = none) ∧
    (∀ img, Image.new env dev info = some img →
      info.dim = ImageDim._2D ∧ info.levels = 1 ∧ info.samples = 1 ∧
      128 ≤ img.align_B ∧
      ∃ e extB, img.levels[0]? = some e ∧
        img.level_extent_B 0 = some extB ∧
        e.offset_B = 0 ∧
        e.row_stride_B = nextMultipleOf extB.width 128 ∧
        img.level_size_B 0 = some (e.row_stride_B * extB.height) ∧
        (0 < info.extent_px.height → extB.height = info.extent_px.height)) := by
  have hsucc : ∀ img, Image.new env dev info = some img →
      info.dim = ImageDim._2D ∧ info.levels = 1 ∧ info.samples = 1 ∧
      128 ≤ img.align_B ∧
      ∃ e extB, img.levels[0]? = some e ∧
        img.level_extent_B 0 = some extB ∧
        e.offset_B = 0 ∧
        e.row_stride_B = nextMultipleOf extB.width 128 ∧
        img.level_size_B 0 = some (e.row_stride_B * extB.height) ∧
        (0 < info.extent_px.height → extB.height = info.extent_px.height) := by
    intro img h
    obtain ⟨hdim, image1, lsB, hloop, hfin⟩ := new_elim h
    obtain ⟨g1, g2, g3, g4, g5, g6, g7, lvl0, hlvl0, hstride, hsize, halign, h128⟩ :=
      finishImage_spec hfin
    -- facts from the main loop invariant at level 0
    obtain ⟨ext, e, sz, d1, d2, d3, d4, _, _, _, d8⟩ :=
      newLoop_spec info.levels 0 (initImage info) 0 image1 lsB hloop
        (initImage_len info) rfl 0 (Nat.le_refl 0) hpos
    obtain ⟨het, herow, hesz, hedep⟩ := d8 hlin
    -- facts from the guards of the first (and only) iteration
    obtain ⟨fl, hfl⟩ : ∃ m, info.levels = m + 1 := ⟨info.levels - 1, by omega⟩
    rw [hfl] at hloop
    obtain ⟨ext0, image0', sz0, hext0, hstep0, hsz0, _⟩ :=
      newLoop_succ_elim (by omega) hloop
    obtain ⟨_, _, _, _, _, _, _, _, _, _, _, _, _, _, slin⟩ :=
      stepImage_spec hstep0 (initImage_len info)
    obtain ⟨_, _, hdim2, hnum1, hlay, _⟩ := slin hlin
    have hdim2' : info.dim = ImageDim._2D := hdim2
    have hnum1' : info.levels = 1 := hnum1
    have hsamp : info.samples = 1 := by
      have : SampleLayout.choose_sample_layout info.samples = SampleLayout._1x1 := hlay
      exact choose_sample_layout_eq_1x1.mp this
    -- transfer the invariant facts to the finished image
    have hlvlF : img.levels[0]? = some e := by
      rw [g7]
      exact d2
    have hextF : img.level_extent_B 0 = some ext :=
      (level_extent_B_congr 0 g3 g2 g4).trans d1
    have hszF : img.level_size_B 0 = some sz := by
      have hc := @level_size_B_congr img image1 0 g5 g3 g2 g4 (by rw [g7])
      exact hc.trans d3
    have he128 : 128 ≤ img.align_B := by
      apply h128
      have : lvl0 = e := by
        rw [hlvl0] at d2
        exact Option.some.inj d2
      rw [this, het, hlin]
    refine ⟨hdim2', hnum1', hsamp, he128, e, ext, hlvlF, hextF, d4 rfl, herow, ?_, ?_⟩
    · rw [hszF, hesz]
    · -- the byte-extent height is the pixel height (for a positive height)
      intro hh
      obtain ⟨_, l2, l3, l4, _⟩ :=
        @newLoop_fields env (selectedTiling env info) (fl + 1) (fl + 1) 0
          (initImage info) 0 image1 lsB hloop (initImage_len info)
      have hx : (initImage info).level_extent_B 0 = some ext :=
        (level_extent_B_congr 0 l3.symm l2.symm l4.symm).trans d1
      have hval : (initImage info).level_extent_B 0 =
          some ⟨max 1 info.extent_px.width * 1 * info.format.el_size_B,
                max 1 info.extent_px.height * 1,
                max 1 info.extent_px.depth,
                info.extent_px.array_len⟩ := by
        unfold Image.level_extent_B levelExtentB levelExtentPx Extent4D.to_B
          Extent4D.to_sa Extent4D.minify initImage
        rw [if_pos (Or.inl rfl), Option.some_bind]
        dsimp only
        rw [hsamp]
        rfl
      rw [hval] at hx
      have hext_eq := Option.some.inj hx
      rw [← hext_eq]
      show max 1 info.extent_px.height * 1 = info.extent_px.height
      rw [Nat.mul_one]
      exact Nat.max_eq_right hh
  refine ⟨?_, hsucc⟩
  intro hno
  cases hres : Image.new env dev info with
  | none => rfl
  | some img =>
    obtain ⟨ha, hb, hc, _⟩ := hsucc img hres
    exact absurd ⟨ha, hb, hc⟩ hno

/-- Counterexample to C8 as stated: a linear construction with zero levels
and four samples succeeds (the level walk never runs), although the image is
neither single-level nor single-sample. -/
theorem c8_counterexample :
    (selectedTiling envL infoL0).is_tiled = false ∧
    infoL0.levels ≠ 1 ∧ infoL0.samples ≠ 1 ∧
    (Image.new envL devA infoL0).isSome = true := by decide

/-- Witness for C8: the 130-px-wide one-byte-texel linear image of the spec's
scenario, with row stride 256 = 130 rounded up to 128 bytes and level byte
size 256 x 7. -/
theorem c8_witness :
    (selectedTiling envL infoL).is_tiled = false ∧ 0 < infoL.levels ∧
    Image.new envL devA infoL = some imgL ∧
    infoL.dim = ImageDim._2D ∧ infoL.levels = 1 ∧ infoL.samples = 1 ∧
    128 ≤ imgL.align_B ∧
    imgL.levels[0]? = some ⟨0, ⟨false, 0, 0, 0⟩, 256⟩ ∧
    imgL.level_size_B 0 = some 1792 := by
  have h := (@c8_linear_layout envL devA infoL (by decide) (by decide)).2 imgL
    (by decide)
  exact ⟨by decide, by decide, by decide, h.1, h.2.1, h.2.2.1, h.2.2.2.1,
    by decide, by decide⟩


theorem aligned_size_pos {ext : Extent4D} {t : Tiling}
    (hw : 0 < ext.width) (hh : 0 < ext.height) (hd : 0 < ext.depth)
    (ha : 0 < ext.array_len) : 0 < (ext.align t.extent_B).size_B := by
  obtain ⟨p1, p2, p3, p4⟩ := t.extent_B_pos
  unfold Extent4D.align Extent4D.size_B
  dsimp only
  rw [p4, nextMultipleOf_one]
  exact Nat.mul_pos (Nat.mul_pos
    (Nat.mul_pos (nextMultipleOf_pos hw p1) (nextMultipleOf_pos hh p2))
    (nextMultipleOf_pos hd p3)) ha

theorem tile_size_dvd_aligned (ext : Extent4D) (t : Tiling) :
    t.size_B ∣ (ext.align t.extent_B).size_B := by
  obtain ⟨_, _, _, p4⟩ := t.extent_B_pos
  unfold Tiling.size_B Extent4D.align Extent4D.size_B
  dsimp only
  rw [p4, nextMultipleOf_one, Nat.mul_one]
  exact Dvd.dvd.mul_right
    (mul_dvd_mul (mul_dvd_mul (nextMultipleOf_dvd _ _) (nextMultipleOf_dvd _ _))
      (nextMultipleOf_dvd _ _)) ext.array_len

/-- C1: for a successfully constructed non-sparse, uniformly-tiled image
(every level's clamped tiling equals the selected base tiling), levels sit at
strictly increasing offsets, the offset difference of consecutive levels
equals `level_size_B` of the lower level, and the last level's size equals
the distance from its offset to the layer end `array_stride_B`. -/
theorem c1_uniform_tiled_layout {env : TilingFns} {dev : DevInfo}
    {info : ImageInitInfo} {img : Image}
    (h : Image.new env dev info = some img)
    (_hns : sparseRequested info = false)
    (ht : (selectedTiling env info).is_tiled = true)
    (huni : ∀ k ext, k < info.levels → img.level_extent_B k = some ext →
      env.clamp (selectedTiling env info) ext = selectedTiling env info)
    (hel : 0 < info.format.el_size_B)
    (harr : 0 < info.extent_px.array_len) :
    (∀ k ek ek1, k + 1 < img.num_levels →
      img.levels[k]? = some ek → img.levels[k + 1]? = some ek1 →
      ek.offset_B < ek1.offset_B ∧
      img.level_size_B k = some (ek1.offset_B - ek.offset_B)) ∧
    (∀ elast, 0 < img.num_levels →
      img.levels[img.num_levels - 1]? = some elast →
      img.level_size_B (img.num_levels - 1) =
        some (img.array_stride_B - elast.offset_B)) := by
  obtain ⟨hdim, image1, lsB, hloop, hfin⟩ := new_elim h
  obtain ⟨g1, g2, g3, g4, g5, g6, g7, lvl0, hlvl0, hstride, hsize, halign, h128⟩ :=
    finishImage_spec hfin
  obtain ⟨l1, l2, l3, l4, l5, _⟩ :=
    @newLoop_fields env (selectedTiling env info) info.levels info.levels 0
      (initImage info) 0 image1 lsB hloop (initImage_len info)
  have hnum : img.num_levels = info.levels := g5.trans l5
  have hspec := fun k hk2 =>
    newLoop_spec info.levels 0 (initImage info) 0 image1 lsB hloop
      (initImage_len info) rfl k (Nat.zero_le _) hk2
  have hex_congr : ∀ k, img.level_extent_B k = image1.level_extent_B k :=
    fun k => level_extent_B_congr k g3 g2 g4
  have hsz_congr : ∀ k, img.level_size_B k = image1.level_size_B k :=
    fun k => level_size_B_congr k g5 g3 g2 g4 (by rw [g7])
  have hel1 : 0 < image1.format.el_size_B := by
    rw [l2]
    exact hel
  have harr1 : 0 < image1.extent_px.array_len := by
    rw [l3]
    exact harr
  -- the clamped tiling of level k equals the base tiling, and the level size
  -- is the aligned flat size, which is positive and a multiple of the tile size
  have hsz_form : ∀ k, k < info.levels → ∀ ext e sz,
      image1.level_extent_B k = some ext → image1.levels[k]? = some e →
      image1.level_size_B k = some sz →
      e.tiling = selectedTiling env info ∧
      sz = (ext.align (selectedTiling env info).extent_B).size_B ∧ 0 < sz := by
    intro k hk ext e sz d1 d2 d3
    obtain ⟨ext', e', sz', d1', d2', d3', _, _, _, d7, _⟩ := hspec k hk
    rw [d1] at d1'
    obtain rfl : ext = ext' := Option.some.inj d1'
    rw [d2] at d2'
    obtain rfl : e = e' := Option.some.inj d2'
    rw [d3] at d3'
    obtain rfl : sz = sz' := Option.some.inj d3'
    obtain ⟨hte, _, htsz⟩ := d7 ht
    have hcl : env.clamp (selectedTiling env info) ext = selectedTiling env info :=
      huni k ext hk ((hex_congr k).trans d1)
    rw [hcl] at hte htsz
    have hszv := htsz ht
    obtain ⟨pw, ph, pd, pa⟩ := levelExtentB_shape d1
    refine ⟨hte, hszv, ?_⟩
    rw [hszv]
    exact aligned_size_pos (pw hel1) ph pd (by rw [pa]; exact harr1)
  -- every stored offset and the final running total are multiples of the
  -- base tile size
  have hchain : ∀ k, k < info.levels → ∀ ek, image1.levels[k]? = some ek →
      (selectedTiling env info).size_B ∣ ek.offset_B := by
    intro k
    induction k with
    | zero =>
      intro hk e0 he0
      obtain ⟨ext, e, sz, _, d2, _, d4, _⟩ := hspec 0 hk
      rw [he0] at d2
      obtain rfl : e0 = e := Option.some.inj d2
      rw [d4 rfl]
      exact dvd_zero _
    | succ k ihk =>
      intro hk ek1 hek1
      obtain ⟨ext, e, sz, d1, d2, d3, _, d5, _, _, _⟩ := hspec k (by omega)
      have hoff := d5 ek1 (by omega) hek1
      have hdvde := ihk (by omega) e d2
      obtain ⟨_, hszv, _⟩ := hsz_form k (by omega) ext e sz d1 d2 d3
      rw [hoff, hszv]
      exact Nat.dvd_add hdvde (tile_size_dvd_aligned _ _)
  constructor
  · -- consecutive levels
    intro k ek ek1 hk hek hek1
    rw [hnum] at hk
    rw [g7] at hek hek1
    obtain ⟨ext, e, sz, d1, d2, d3, _, d5, _, _, _⟩ := hspec k (by omega)
    rw [hek] at d2
    obtain rfl : ek = e := Option.some.inj d2
    have hoff := d5 ek1 hk hek1
    obtain ⟨_, _, hpos⟩ := hsz_form k (by omega) ext ek sz d1
      (by rw [← hek]) d3
    refine ⟨by omega, ?_⟩
    have hv : ek1.offset_B - ek.offset_B = sz := by omega
    rw [hv, hsz_congr k]
    exact d3
  · -- last level reaches the layer end
    intro elast hn helast
    rw [hnum] at hn helast ⊢
    rw [g7] at helast
    obtain ⟨ext, e, sz, d1, d2, d3, _, _, d6, _, _⟩ :=
      hspec (info.levels - 1) (by omega)
    rw [helast] at d2
    obtain rfl : elast = e := Option.some.inj d2
    have htot : lsB = elast.offset_B + sz := d6 (by omega)
    -- the running total is a multiple of the level-0 tile size
    obtain ⟨ext0, e0, sz0, d10, d20, d30, d40, _⟩ := hspec 0 (by omega)
    rw [hlvl0] at d20
    obtain rfl : lvl0 = e0 := Option.some.inj d20
    obtain ⟨hte0, _, _⟩ := hsz_form 0 (by omega) ext0 lvl0 sz0 d10
      (by rw [hlvl0]) d30
    obtain ⟨_, hszv, _⟩ :=
      hsz_form (info.levels - 1) (by omega) ext elast sz d1 (by rw [← helast]) d3
    have hdvd_tot : (selectedTiling env info).size_B ∣ lsB := by
      rw [htot, hszv]
      exact Nat.dvd_add (hchain (info.levels - 1) (by omega) elast (by rw [← helast]))
        (tile_size_dvd_aligned _ _)
    have hstride2 : img.array_stride_B = lsB := by
      rw [hstride, hte0]
      exact nextMultipleOf_eq_self (Tiling.size_B_pos _) hdvd_tot
    have hv : img.array_stride_B - elast.offset_B = sz := by
      rw [hstride2]
      omega
    rw [hv, hsz_congr (info.levels - 1)]
    exact d3

/-- Witness for C1 on the concrete 2-level uniformly tiled image `imgA`
(offsets 0 and 8192, `level_size_B 0 = 8192`, last level reaching the layer
end `10240`). -/
theorem c1_witness :
    Image.new envA devA infoA = some imgA ∧
    sparseRequested infoA = false ∧
    (selectedTiling envA infoA).is_tiled = true ∧
    0 < infoA.format.el_size_B ∧ 0 < infoA.extent_px.array_len ∧
    imgA.levels[0]? = some ⟨0, ⟨true, 0, 0, 0⟩, 512⟩ ∧
    imgA.levels[1]? = some ⟨8192, ⟨true, 0, 0, 0⟩, 256⟩ ∧
    ((⟨0, ⟨true, 0, 0, 0⟩, 512⟩ : ImageLevel).offset_B <
        (⟨8192, ⟨true, 0, 0, 0⟩, 256⟩ : ImageLevel).offset_B ∧
      imgA.level_size_B 0 =
        some ((⟨8192, ⟨true, 0, 0, 0⟩, 256⟩ : ImageLevel).offset_B -
          (⟨0, ⟨true, 0, 0, 0⟩, 512⟩ : ImageLevel).offset_B)) ∧
    imgA.level_size_B (imgA.num_levels - 1) =
      some (imgA.array_stride_B -
        (⟨8192, ⟨true, 0, 0, 0⟩, 256⟩ : ImageLevel).offset_B) := by
  have h := @c1_uniform_tiled_layout envA devA infoA imgA (by decide) (by decide)
    (by decide) (fun _ _ _ _ => rfl) (by decide) (by decide)
  refine ⟨by decide, by decide, by decide, by decide, by decide, by decide,
    by decide, ?_, ?_⟩
  · exact h.1 0 ⟨0, ⟨true, 0, 0, 0⟩, 512⟩ ⟨8192, ⟨true, 0, 0, 0⟩, 256⟩
      (by decide) (by decide) (by decide)
  · exact h.2 ⟨8192, ⟨true, 0, 0, 0⟩, 256⟩ (by decide) (by decide)

end NIL
